import Mathlib

/-!
Shallow embedding of the reconciliation engine of SyncGitlab2MSProject
(`sync_mrs.py`, `gitlab_merge_requests.py`, `sync_func.py`, `ms_project.py`).

Modelling conventions:
* Python strings are modelled as `List Char` (`Str`); `split(";")[0]` is
  `takeWhile (· ≠ ';')`, `startswith` is `List.isPrefixOf`.
* Python `int` values are `Int`; time-stat values are seconds as `Int`,
  the `/ 60` conversions produce `Minutes` (an exact count of sixtieths in
  place of floats — the only operations the program applies to these values
  are `int(...)` truncation and `round(...)`, both defined exactly on
  sixtieths; no claim depends on float rounding beyond that).
* Timestamps (`datetime`) are abstracted to an opaque `Date := Int`; the
  `dateutil` marshalling is an excluded collaborator.
* Mutation of `Task` objects becomes explicit state passing: each write
  `task.f = v` becomes a functional record update.
* Exceptions become `Except`: `KeyError` from dictionary lookups,
  `MovedMergeRequestNotDefined` from `MergeRequest.moved_reference`, and
  `ValueError` from `int(...)`.  COM-level write failures
  (`MSProjectValueSetError` / `com_error`), which in the source can only
  arise from the external task-typer collaborator and the COM layer, are
  modelled through the success flags of the abstract `TaskTyperSetter`.
-/

abbrev Str := List Char

/-- `str s` injects a Lean string literal into the `List Char` model. -/
def str (s : String) : Str := s.toList

/-- Embedding of Python whitespace stripping, `s.strip()`. -/
def trimChars (cs : Str) : Str :=
  (((cs.dropWhile Char.isWhitespace).reverse.dropWhile Char.isWhitespace).reverse)

/-- The character `'` (apostrophe), by code point. -/
def aposChar : Char := Char.ofNat 39

/-- A decimal digit character, `0 ≤ d ≤ 9` expected (codepoint 48 is `0`). -/
def digitChar (d : Nat) : Char :=
  if d < 9 then Char.ofNat (48 + d) else '9'

/-- Inverse of `digitChar`: the value of a decimal digit character. -/
def parseDigit (c : Char) : Option Nat :=
  if 48 ≤ c.toNat ∧ c.toNat ≤ 57 then some (c.toNat - 48) else none

/-- Fuel-driven digit renderer (structural recursion so that concrete
values reduce); the fuel never runs out when it starts at `n`. -/
def natReprAux : Nat → Nat → List Char
  | 0, n => [digitChar n]
  | fuel + 1, n =>
    if n < 10 then [digitChar n]
    else natReprAux fuel (n / 10) ++ [digitChar (n % 10)]

/-- Decimal rendering of a natural number (no leading zeros except `"0"`),
the semantics of Python `str` on a non-negative `int`. -/
def natReprChars (n : Nat) : List Char := natReprAux n n

/-- Decimal rendering of an integer, the semantics of Python `str` on `int`. -/
def intReprChars (i : Int) : List Char :=
  if i < 0 then '-' :: natReprChars i.natAbs else natReprChars i.toNat

/-- Accumulating decimal parser over digit characters. -/
def parseNatAux (acc : Nat) : List Char → Option Nat
  | [] => some acc
  | c :: cs =>
    match parseDigit c with
    | some d => parseNatAux (acc * 10 + d) cs
    | none => none

/-- Parse a non-empty all-digit character list as a natural number. -/
def parseNatChars : List Char → Option Nat
  | [] => none
  | cs => parseNatAux 0 cs

/-- Sign handling of Python `int(...)` over an already-stripped string. -/
def parseIntChars (cs : List Char) : Option Int :=
  match cs with
  | [] => none
  | c :: rest =>
    if c = '-' then (parseNatChars rest).map (fun n => -(n : Int))
    else if c = '+' then (parseNatChars rest).map (fun n => (n : Int))
    else (parseNatChars (c :: rest)).map (fun n => (n : Int))

/-- Embedding of Python `int(s)` on a string: surrounding whitespace is
stripped, then an optionally signed decimal numeral is parsed; anything
else raises `ValueError` (here: `none`).  (PEP-515 underscores are not
modelled; no value reaching `int` in this program contains them.) -/
def pyIntOfChars (cs : Str) : Option Int :=
  parseIntChars (trimChars cs)

/-- Python `str(x)` for `Optional[int]` (an f-string renders `None`). -/
def pyStrOptInt : Option Int → Str
  | none => str "None"
  | some i => intReprChars i

/-- The float `seconds / 60` of the time-stat properties, represented
exactly by its numerator over the fixed denominator 60 (`Rat` is avoided
because its normalizing arithmetic does not reduce in the kernel). -/
structure Minutes where
  sixtieths : Int
deriving DecidableEq, Repr

/-- Python `int()` applied to the minutes value: truncation toward zero of
`sixtieths / 60`. -/
def Minutes.pyInt (m : Minutes) : Int := m.sixtieths.tdiv 60

/-- Python `round()` (round half to even) of the exact fraction
`num / den`, `den > 0` expected. -/
def roundHalfEven (num den : Nat) : Nat :=
  let q := num / den
  let r := num % den
  if 2 * r < den then q
  else if den < 2 * r then q + 1
  else if q % 2 = 0 then q else q + 1

/-- First-match association-list lookup, the model of a Python `dict`
with (as enforced at insertion time) unique keys. -/
def alookup {α β : Type} [DecidableEq α] : List (α × β) → α → Option β
  | [], _ => none
  | (k, v) :: rest, key => if k = key then some v else alookup rest key

/-! ## Data model (inside a namespace: `Task` would otherwise collide with
the core `Task` type) -/

namespace SGMP

/-- `custom_types.MergeRequestRef`: opaque wrapper around the MR id. -/
structure MergeRequestRef where
  val : Int
deriving DecidableEq, Repr

/-- `custom_types.WebURL`: wrapper around a URL string. -/
structure WebURL where
  url : Str
deriving DecidableEq, Repr

/-- Abstracted timestamp (`datetime` after `dateutil` parsing). -/
abbrev Date := Int

/-- The scalar attributes of a GitLab merge request as exposed by the
`MergeRequest` wrapper properties in `gitlab_merge_requests.py`.
`group_id` is the result of the `group_id` property (fixed id, extracted
id, or `None`); `completed_count`/`task_count` model
`task_completion_status`; `time_estimate`/`total_time_spent` are the
second-valued `time_stats` entries. -/
structure MRData where
  id : Int
  iid : Int
  project_id : Int
  group_id : Option Int
  title : Str
  state : Str
  web_url : Str
  moved_to_id : Option Int
  has_tasks : Bool
  completed_count : Nat
  task_count : Nat
  time_estimate : Option Int
  total_time_spent : Option Int
  labels : List Str
  assignees : List Str
  created_at : Option Date
  closed_at : Option Date
  due_date : Option Date
  full_ref : Str
deriving DecidableEq, Repr

/-- `gitlab_merge_requests.MergeRequest`: the data snapshot together with
the mutable `_moved_reference` pointer (set by the orchestrator's
resolution pass; `None` at construction).  Because the pointer chain is a
finite sequence of record snapshots, the reachable object graph is
represented flat: `restChain` lists the data of the successive
`_moved_reference` objects (`[]` = pointer unset). -/
structure MergeRequest where
  data : MRData
  restChain : List MRData
deriving DecidableEq, Repr

/-- The `_moved_reference` field as an object: `none` when unset,
otherwise the successor record with the remainder of the chain. -/
def MergeRequest.movedRef (mr : MergeRequest) : Option MergeRequest :=
  match mr.restChain with
  | [] => none
  | d2 :: rest => some ⟨d2, rest⟩

/-- `MergeRequest.is_closed`: `str(state).lower().strip().startswith("closed")`. -/
def MRData.is_closed (d : MRData) : Bool :=
  (str "closed").isPrefixOf (trimChars (d.state.map Char.toLower))

/-- `MergeRequest.time_estimated`: seconds divided by 60 (minutes),
`None` when the time stats hold no estimate. -/
def MRData.time_estimated (d : MRData) : Option Minutes :=
  d.time_estimate.map Minutes.mk

/-- `MergeRequest.time_spent_total`: seconds divided by 60 (minutes). -/
def MRData.time_spent_total (d : MRData) : Option Minutes :=
  d.total_time_spent.map Minutes.mk

/-- `MergeRequest.percentage_tasks_done` along the moved chain.  `none`
models an uncaught interpreter error: the
`assert self._moved_reference is not None` failing, or `ZeroDivisionError`
when `has_tasks` is set with a zero task count. -/
def percentageAux : MRData → List MRData → Option Int
  | d, rest =>
    if d.is_closed then
      match d.moved_to_id with
      | some _ =>
        match rest with
        | d2 :: r2 => percentageAux d2 r2
        | [] => none
      | none => some 100
    else if !d.has_tasks then some 0
    else if d.task_count = 0 then none
    else some (roundHalfEven (d.completed_count * 100) d.task_count : Nat)

def MergeRequest.percentage_tasks_done (mr : MergeRequest) : Option Int :=
  percentageAux mr.data mr.restChain

/-- `MergeRequest.moved_reference` (the property getter): `none` result
for a record that is not moved; raises `MovedMergeRequestNotDefined`
(`Except.error`) when moved but unresolved. -/
def MergeRequest.moved_reference (mr : MergeRequest) :
    Except Unit (Option MergeRequest) :=
  match mr.data.moved_to_id with
  | none => .ok none
  | some _ =>
    match mr.movedRef with
    | none => .error ()
    | some m => .ok (some m)

/-! ## Task model (`ms_project.Task`): the fields read or written by the
reconciliation engine, as a pure record. -/

structure Task where
  name : Str
  text28 : Option Str
  text29 : Option Str
  text30 : Option Str
  hyperlink_name : Option Str
  hyperlink_address : Option Str
  deadline : Option Date
  duration : Option Int
  estimated : Bool
  work : Int
  actual_work : Option Minutes
  percent_complete : Int
  has_children : Bool
  actual_start : Option Date
  actual_finish : Option Date
  resource_names : Option Str
deriving DecidableEq, Repr

/-! ## Reference codec (`sync_mrs.py` lines 21-54) -/

/-- `MR_PREFIX = "!!DON'T CHANGE!! MR:"` (apostrophe spelled by code point). -/
def MR_PREFIX : Str :=
  str "!!DON" ++ [aposChar] ++ str "T CHANGE!! MR:"

def DEFAULT_DURATION : Int := 8 * 60

/-- `get_merge_request_ref_id`. -/
def get_merge_request_ref_id (d : MRData) : MergeRequestRef :=
  ⟨d.id⟩

/-- `get_merge_request_web_url`. -/
def get_merge_request_web_url (d : MRData) : WebURL :=
  ⟨d.web_url⟩

/-- The back-reference string written by `set_merge_request_ref_to_task`:
`f"{MR_PREFIX}{id};{group_id};{project_id};{iid}"`. -/
def encode_back_reference (d : MRData) : Str :=
  MR_PREFIX ++ intReprChars d.id ++ [';'] ++ pyStrOptInt d.group_id
    ++ [';'] ++ intReprChars d.project_id ++ [';'] ++ intReprChars d.iid

/-- `set_merge_request_ref_to_task`: writes the back-reference into
`task.text30` (in-place mutation becomes a record update). -/
def set_merge_request_ref_to_task (task : Task) (d : MRData) : Task :=
  { task with text30 := some (encode_back_reference d) }

/-- `get_merge_request_ref_from_task`: when `text30` is set, non-empty and
starts with the prefix, parse the first `;`-delimited segment with
`int(...)` (`ValueError` on a malformed numeral is `Except.error`);
otherwise `None`. -/
def get_merge_request_ref_from_task (task : Option Task) :
    Except Unit (Option MergeRequestRef) :=
  match task with
  | none => .ok none
  | some t =>
    match t.text30 with
    | none => .ok none
    | some s =>
      if s ≠ [] ∧ MR_PREFIX.isPrefixOf s then
        match pyIntOfChars ((s.drop MR_PREFIX.length).takeWhile (· ≠ ';')) with
        | some i => .ok (some ⟨i⟩)
        | none => .error ()
      else .ok none

/-! ## Field synchronizer (`update_task_with_merge_request_data`) -/

/-- `helper_classes.TaskTyperSetter` (an external collaborator, not under
`src/`): the type-policy callbacks invoked before and after the field
writes.  Each returns the (possibly mutated) task and a flag that is
`false` when the callback raised one of the exceptions caught by
`update_task_with_merge_request_data` (`MSProjectValueSetError` /
`com_error`). -/
structure TaskTyperSetter where
  set_task_type_before_sync : MergeRequest → Task → Bool → Task × Bool
  set_task_type_after_sync : MergeRequest → Task → Task × Bool

/-- Uncaught-exception model for the synchronizer: the shared
`parent_ids` list travels with `MovedMergeRequestNotDefined` because the
Python handler returns the list object that deeper frames already
extended in place; `uncaught` stands for an interpreter error
(`AssertionError` / `ZeroDivisionError`) that no handler catches. -/
inductive PyErr where
  | movedNotDefined (ids : List MergeRequestRef)
  | uncaught
deriving DecidableEq, Repr

/-- Line 108: `task.name = merge_request.title`. -/
def syncName (d : MRData) (t : Task) : Task :=
  { t with name := d.title }

/-- Lines 110-111: `deadline` only when the record has a due date. -/
def syncDeadline (d : MRData) (t : Task) : Task :=
  match d.due_date with
  | some dd => { t with deadline := some dd }
  | none => t

/-- Lines 112-114: estimated work, only for leaf tasks when the record
provides a time estimate. -/
def syncWork (d : MRData) (t : Task) : Task :=
  if !t.has_children then
    match d.time_estimated with
    | some e => { t with work := e.pyInt }
    | none => t
  else t

/-- Lines 108-114 combined, in source order. -/
def syncTitleWork (d : MRData) (t : Task) : Task :=
  syncWork d (syncDeadline d (syncName d t))

/-- Lines 115-118: overwrite `duration` with `work` only when the current
duration equals `DEFAULT_DURATION`, the task is flagged as an estimate,
and the (possibly just rewritten) work is positive. -/
def syncDuration (t : Task) : Task :=
  if t.duration = some DEFAULT_DURATION ∧ t.estimated ∧ t.work > 0 then
    { t with duration := some t.work }
  else t

/-- Lines 119-120: actual work when the record reports time spent. -/
def syncActualWork (d : MRData) (t : Task) : Task :=
  match d.time_spent_total with
  | some s => { t with actual_work := some s }
  | none => t

/-- Lines 121-122: percent-complete guarded by
`has_tasks or percent_complete == 0`.  The percent write evaluates
`percentage_tasks_done`, whose failure (`none`) is an uncaught error. -/
def syncPercentStep (mr : MergeRequest) (t : Task) : Except PyErr Task :=
  if mr.data.has_tasks = true ∨ t.percent_complete = (0 : Int) then
    match mr.percentage_tasks_done with
    | some p => .ok { t with percent_complete := p }
    | none => .error .uncaught
  else .ok t

/-- Lines 119-122 combined, in source order. -/
def syncWorkPercent (mr : MergeRequest) (t : Task) : Except PyErr Task :=
  syncPercentStep mr (syncActualWork mr.data t)

/-- Lines 123-127: hyperlink name/address, URL echo field, quoted
semicolon-joined labels, actual start. -/
def syncLinks (d : MRData) (t : Task) : Task :=
  { t with
    hyperlink_name := some d.full_ref
    hyperlink_address := some d.web_url
    text29 := some d.web_url
    text28 := some (List.intercalate (str "; ")
      (d.labels.map (fun l => '"' :: l ++ ['"'])))
    actual_start := d.created_at }

/-- Lines 128-129: first assignee as resource name, when any. -/
def syncResource (d : MRData) (t : Task) : Task :=
  match d.assignees with
  | a :: _ => { t with resource_names := some a }
  | [] => t

/-- Lines 130-131: actual finish from closed-at, for closed records. -/
def syncFinish (d : MRData) (t : Task) : Task :=
  if d.is_closed then { t with actual_finish := d.closed_at } else t

/-- Lines 123-131 combined, in source order. -/
def syncLinksDates (d : MRData) (t : Task) : Task :=
  syncFinish d (syncResource d (syncLinks d t))

/-- The non-moved, non-ignored body of
`update_task_with_merge_request_data` (lines 104-138): the back-reference
write happens before the `try`, each type-setter callback may fail (the
exception is caught, so the partially written task is still returned). -/
def syncBody (ts : TaskTyperSetter) (task : Task) (mr : MergeRequest)
    (is_add : Bool) : Except PyErr Task :=
  match ts.set_task_type_before_sync mr
      (set_merge_request_ref_to_task task mr.data) is_add with
  | (t1, false) => .ok t1
  | (t1, true) =>
    match syncWorkPercent mr (syncDuration (syncTitleWork mr.data t1)) with
    | .error e => .error e
    | .ok t2 => .ok (ts.set_task_type_after_sync mr (syncLinksDates mr.data t2)).1

/-- Recursion worker of `update_task_with_merge_request_data` over the
record's data and its resolved successor chain. -/
def updateAux (ts : TaskTyperSetter) (task : Task) :
    MRData → List MRData → Option (List MergeRequestRef) → Bool → Bool →
    Except PyErr (Task × List MergeRequestRef)
  | d, rest, parents?, ignore_merge_request, is_add =>
    match d.moved_to_id with
    | some _ =>
      match rest with
      | [] =>
        .error (.movedNotDefined (parents?.getD [] ++ [get_merge_request_ref_id d]))
      | d2 :: r2 =>
        match updateAux ts task d2 r2
            (some (parents?.getD [] ++ [get_merge_request_ref_id d]))
            ignore_merge_request false with
        | .ok r => .ok r
        | .error (.movedNotDefined ids) => .ok (task, ids)
        | .error .uncaught => .error .uncaught
    | none =>
      if ignore_merge_request then
        .ok (task, parents?.getD [] ++ [get_merge_request_ref_id d])
      else
        match syncBody ts task ⟨d, rest⟩ is_add with
        | .ok t => .ok (t, parents?.getD [] ++ [get_merge_request_ref_id d])
        | .error e => .error e

/-- `update_task_with_merge_request_data` (lines 57-139).  `parents?` is
the `parent_ids` argument (`none` = omitted); the recursive call for a
resolved moved reference does not forward `is_add` (it defaults to
`False` in the source).  A `MovedMergeRequestNotDefined` raised by the
recursive call is caught and the identifiers gathered so far are
returned with the task untouched; the same exception raised by the
record passed in directly propagates. -/
def update_task_with_merge_request_data (ts : TaskTyperSetter) (task : Task)
    (mr : MergeRequest) (parents? : Option (List MergeRequestRef))
    (ignore_merge_request is_add : Bool) :
    Except PyErr (Task × List MergeRequestRef) :=
  updateAux ts task mr.data mr.restChain parents? ignore_merge_request is_add

/-! ## Record index (`MergeRequestFinder`) -/

/-- The error raised by `MergeRequestFinder.__init__`
(`MergeRequestReferenceDuplicated`): both conflicting records are named
in the message; `byUrl` records which of the two messages was produced. -/
structure DupErr where
  first : MergeRequest
  second : MergeRequest
  byUrl : Bool
deriving DecidableEq, Repr

/-- The two dictionaries of `MergeRequestFinder`. -/
structure MergeRequestFinder where
  ref_id_to_merge_request : List (MergeRequestRef × MergeRequest)
  web_url_to_merge_request : List (WebURL × MergeRequest)
deriving DecidableEq, Repr

/-- The construction loop of `MergeRequestFinder.__init__` (lines
153-176): for each record, fail if its ref id is already indexed, then
fail if its web URL is already indexed, else extend both dictionaries.
Failure aborts construction (no partial index escapes). -/
def buildFinder : List MergeRequest → MergeRequestFinder →
    Except DupErr MergeRequestFinder
  | [], acc => .ok acc
  | mr :: rest, acc =>
    let ref_id := get_merge_request_ref_id mr.data
    match alookup acc.ref_id_to_merge_request ref_id with
    | some existing => .error ⟨existing, mr, false⟩
    | none =>
      let web_url := get_merge_request_web_url mr.data
      match alookup acc.web_url_to_merge_request web_url with
      | some existing => .error ⟨existing, mr, true⟩
      | none =>
        buildFinder rest
          ⟨acc.ref_id_to_merge_request ++ [(ref_id, mr)],
           acc.web_url_to_merge_request ++ [(web_url, mr)]⟩

/-- `MergeRequestFinder(merge_requests)`. -/
def mkMergeRequestFinder (merge_requests : List MergeRequest) :
    Except DupErr MergeRequestFinder :=
  buildFinder merge_requests ⟨[], []⟩

/-- `MergeRequestFinder.by_ref_id`: `None` input gives `None`; a present
key gives its record; an absent key raises `KeyError` (`Except.error`). -/
def MergeRequestFinder.by_ref_id (f : MergeRequestFinder) :
    Option MergeRequestRef → Except Unit (Option MergeRequest)
  | none => .ok none
  | some r =>
    match alookup f.ref_id_to_merge_request r with
    | some mr => .ok (some mr)
    | none => .error ()

/-- `MergeRequestFinder.by_web_url`: same contract as `by_ref_id`. -/
def MergeRequestFinder.by_web_url (f : MergeRequestFinder) :
    Option WebURL → Except Unit (Option MergeRequest)
  | none => .ok none
  | some w =>
    match alookup f.web_url_to_merge_request w with
    | some mr => .ok (some mr)
    | none => .error ()

/-! ## Task matcher (`sync_func.get_weburl_from_task`,
`find_related_merge_request`) -/

/-- `sync_func.is_gitlab_hyperlink`. -/
def is_gitlab_hyperlink (url : WebURL) (gitlab_url : WebURL) : Bool :=
  gitlab_url.url.isPrefixOf url.url

/-- `sync_func.get_weburl_from_task`: the hyperlink address, else the
`text29` echo field, either accepted only when prefixed by the GitLab
base URL. -/
def get_weburl_from_task (task : Option Task) (gitlab_url : WebURL) :
    Option WebURL :=
  let check_get_url : Option Str → Option WebURL := fun v =>
    match v with
    | some s => if is_gitlab_hyperlink ⟨s⟩ gitlab_url then some ⟨s⟩ else none
    | none => none
  match task with
  | none => none
  | some t =>
    match check_get_url t.hyperlink_address with
    | some u => some u
    | none => check_get_url t.text29

/-- `find_related_merge_request` (lines 209-230): back-reference first
(`KeyError` caught and logged, fall through), then the URL (same
handling), else `None`.  A `ValueError` from decoding the back-reference
is not caught and propagates. -/
def find_related_merge_request (task : Task) (f : MergeRequestFinder)
    (gitlab_url : WebURL) : Except Unit (Option MergeRequest) :=
  match get_merge_request_ref_from_task (some task) with
  | .error e => .error e
  | .ok ro =>
    match f.by_ref_id ro with
    | .ok (some mr) => .ok (some mr)
    | _ =>
      match f.by_web_url (get_weburl_from_task (some task) gitlab_url) with
      | .ok (some mr) => .ok (some mr)
      | _ => .ok none

/-! ## Sync orchestrator (`sync_gitlab_merge_requests_to_ms_project`) -/

/-- Errors that abort the whole run. -/
inductive SyncErr where
  | dup (e : DupErr)
  | keyError (r : MergeRequestRef)
  | valueError
  | movedNotDefined (ids : List MergeRequestRef)
  | uncaught
  | unterminatedChain
deriving DecidableEq, Repr

/-- The observable result of a completed run: the task document (existing
slots updated in place, created tasks appended), the `synced` list of
consumed refs from the existing-task pass, and the refs for which a new
task was created, in creation order. -/
structure RunResult where
  doc : List (Option Task)
  synced : List MergeRequestRef
  created : List MergeRequestRef
deriving DecidableEq, Repr

/-- The object graph produced by the resolution pass (lines 263-267):
because every record object is shared between the finder and the input
list, setting each record's `moved_reference` from the finder links whole
chains.  `deepResolve` rebuilds the graph reachable from one record; the
fuel bounds chain length (a cyclic chain, which would make the Python
recursion diverge, exhausts the fuel and yields `none`). -/
def chainOf (f : MergeRequestFinder) : Nat → MRData → Option (List MRData)
  | 0, _ => none
  | fuel + 1, d =>
    match d.moved_to_id with
    | none => some []
    | some i =>
      match alookup f.ref_id_to_merge_request ⟨i⟩ with
      | none => none
      | some target => (chainOf f fuel target.data).map (target.data :: ·)

def deepResolve (f : MergeRequestFinder) (fuel : Nat) (mr : MergeRequest) :
    Option MergeRequest :=
  (chainOf f fuel mr.data).map (fun c => ⟨mr.data, c⟩)

/-- The moved-reference resolution loop (lines 263-269): for each record
with a declared successor, look the successor up with `by_ref_id` — an
absent successor therefore raises `KeyError`, aborting the run; records
with no successor are collected, in input order, into `non_moved`. -/
def resolutionPass (f : MergeRequestFinder) :
    List MergeRequest → Except SyncErr (List MergeRequestRef)
  | [] => .ok []
  | mr :: rest =>
    match mr.data.moved_to_id with
    | some i =>
      match f.by_ref_id (some ⟨i⟩) with
      | .error _ => .error (.keyError ⟨i⟩)
      | .ok _ => resolutionPass f rest
    | none =>
      match resolutionPass f rest with
      | .error e => .error e
      | .ok tail => .ok (get_merge_request_ref_id mr.data :: tail)

/-- The existing-task pass (lines 272-297): skip empty slots, match each
task, decide the ignore flag from the inclusion predicate, and run the
field synchronizer, accumulating every returned ref into `synced`.  The
record handed to the synchronizer is the finder's object after the
resolution pass, i.e. `deepResolve` of the matched record. -/
def taskPass (f : MergeRequestFinder) (gitlab_url : WebURL)
    (ts : TaskTyperSetter) (include_merge_request : MergeRequest → Bool)
    (fuel : Nat) :
    List (Option Task) → Except SyncErr (List (Option Task) × List MergeRequestRef)
  | [] => .ok ([], [])
  | none :: rest =>
    match taskPass f gitlab_url ts include_merge_request fuel rest with
    | .error e => .error e
    | .ok (doc, synced) => .ok (none :: doc, synced)
  | some task :: rest =>
    match find_related_merge_request task f gitlab_url with
    | .error _ => .error .valueError
    | .ok none =>
      match taskPass f gitlab_url ts include_merge_request fuel rest with
      | .error e => .error e
      | .ok (doc, synced) => .ok (some task :: doc, synced)
    | .ok (some mr) =>
      let ignore := !include_merge_request mr
      match deepResolve f fuel mr with
      | none => .error .unterminatedChain
      | some resolved =>
        match update_task_with_merge_request_data ts task resolved none
            ignore false with
        | .error (.movedNotDefined ids) => .error (.movedNotDefined ids)
        | .error .uncaught => .error .uncaught
        | .ok (task', ids) =>
          match taskPass f gitlab_url ts include_merge_request fuel rest with
          | .error e => .error e
          | .ok (doc, synced) => .ok (some task' :: doc, ids ++ synced)

/-- Modelled from the spec: `MSProject.add_task` is called by
`add_merge_request_as_task_to_project` but is absent from the copy of
`ms_project.py` under `src/`; the spec fixes only that the document
exposes an "add task" operation appending a fresh task named after the
record.  All other fields start empty/zero. -/
def add_task (name : Str) : Task :=
  { name := name
    text28 := none, text29 := none, text30 := none
    hyperlink_name := none, hyperlink_address := none
    deadline := none, duration := none, estimated := false
    work := 0, actual_work := none, percent_complete := 0
    has_children := false, actual_start := none, actual_finish := none
    resource_names := none }

/-- The creation pass (lines 299-309): every `non_moved` ref not consumed
by the task pass is looked up (`by_ref_id`, so an absent ref would raise
`KeyError`), filtered by the inclusion predicate, and turned into a new
task that is then synchronized with `is_add=True`
(`add_merge_request_as_task_to_project`, lines 142-149; the refs returned
by that synchronization are discarded). -/
def creationPass (f : MergeRequestFinder) (ts : TaskTyperSetter)
    (include_merge_request : MergeRequest → Bool) (fuel : Nat)
    (synced : List MergeRequestRef) (doc : List (Option Task)) :
    List MergeRequestRef → Except SyncErr (List (Option Task) × List MergeRequestRef)
  | [] => .ok (doc, [])
  | ref_id :: rest =>
    if ref_id ∈ synced then
      creationPass f ts include_merge_request fuel synced doc rest
    else
      match f.by_ref_id (some ref_id) with
      | .error _ => .error (.keyError ref_id)
      | .ok none => creationPass f ts include_merge_request fuel synced doc rest
      | .ok (some mr) =>
        if !include_merge_request mr then
          creationPass f ts include_merge_request fuel synced doc rest
        else
          let task := add_task mr.data.title
          match deepResolve f fuel mr with
          | none => .error .unterminatedChain
          | some resolved =>
            match update_task_with_merge_request_data ts task resolved none
                false true with
            | .error (.movedNotDefined ids) => .error (.movedNotDefined ids)
            | .error .uncaught => .error .uncaught
            | .ok (task', _) =>
              match creationPass f ts include_merge_request fuel synced
                  (doc ++ [some task']) rest with
              | .error e => .error e
              | .ok (doc', created) => .ok (doc', ref_id :: created)

/-- `sync_gitlab_merge_requests_to_ms_project` (lines 233-309): a `None`
inclusion predicate includes everything; build the finder (duplicate
references abort), run the resolution pass, the existing-task pass, and
the creation pass. -/
def sync_gitlab_merge_requests_to_ms_project (doc : List (Option Task))
    (merge_requests : List MergeRequest) (gitlab_url : WebURL)
    (ts : TaskTyperSetter)
    (include_merge_request? : Option (MergeRequest → Bool)) :
    Except SyncErr RunResult :=
  let include_merge_request := include_merge_request?.getD (fun _ => true)
  let fuel := merge_requests.length + 1
  match mkMergeRequestFinder merge_requests with
  | .error e => .error (.dup e)
  | .ok f =>
    match resolutionPass f merge_requests with
    | .error e => .error e
    | .ok non_moved =>
      match taskPass f gitlab_url ts include_merge_request fuel doc with
      | .error e => .error e
      | .ok (doc', synced) =>
        match creationPass f ts include_merge_request fuel synced doc'
            non_moved with
        | .error e => .error e
        | .ok (doc'', created) => .ok ⟨doc'', synced, created⟩

/-! ## Concrete fixtures used by witnesses and counterexamples -/

/-- A type-setter that adjusts nothing and never fails (the neutral
instantiation of the external collaborator). -/
def idSetter : TaskTyperSetter :=
  ⟨fun _ t _ => (t, true), fun _ t => (t, true)⟩

/-- A task with every field empty / zero. -/
def emptyTask : Task :=
  { name := [], text28 := none, text29 := none, text30 := none
    hyperlink_name := none, hyperlink_address := none
    deadline := none, duration := none, estimated := false
    work := 0, actual_work := none, percent_complete := 0
    has_children := false, actual_start := none, actual_finish := none
    resource_names := none }

/-- An open, non-moved merge request with the given id (distinct URL per
id). -/
def sampleData (id : Int) : MRData :=
  { id := id, iid := id, project_id := 7, group_id := some 5
    title := str "task " ++ intReprChars id
    state := str "opened"
    web_url := str "https://gitlab.example.com/g/p/-/merge_requests/" ++ intReprChars id
    moved_to_id := none, has_tasks := false
    completed_count := 0, task_count := 0
    time_estimate := none, total_time_spent := none
    labels := [], assignees := []
    created_at := some 100, closed_at := none, due_date := none
    full_ref := str "g/p!" ++ intReprChars id }

/-- The GitLab base URL of the fixtures. -/
def gitlabURL0 : WebURL := ⟨str "https://gitlab.example.com"⟩

/-- C2 failing input: a record declaring successor id 2 while no record
with id 2 exists. -/
def mrMovedOutside : MergeRequest :=
  ⟨{ sampleData 1 with moved_to_id := some 2 }, []⟩

/-- C3/C10 inputs: a record whose declared move is unresolved, alone and
behind one resolved link. -/
def mrUnresolved (id : Int) : MergeRequest :=
  ⟨{ sampleData id with moved_to_id := some 99 }, []⟩

def mrChainToUnresolved : MergeRequest :=
  ⟨{ sampleData 1 with moved_to_id := some 2 },
   [{ sampleData 2 with moved_to_id := some 99 }]⟩

/-- C7 counterexample input: a task still at the default duration, flagged
as estimate, with zero work; and a record providing a 2-hour estimate. -/
def taskDefaultDuration : Task :=
  { emptyTask with duration := some DEFAULT_DURATION, estimated := true }

def mrWithEstimate : MergeRequest :=
  ⟨{ sampleData 4 with time_estimate := some 7200 }, []⟩

def updC7 : Except PyErr (Task × List MergeRequestRef) :=
  update_task_with_merge_request_data idSetter taskDefaultDuration
    mrWithEstimate none false false

def updC7res : Task × List MergeRequestRef :=
  match updC7 with
  | .ok r => r
  | .error _ => (emptyTask, [])

/-- C7 witness run: a task whose duration differs from the default keeps
it even against a record with a positive estimate. -/
def updC7b : Except PyErr (Task × List MergeRequestRef) :=
  update_task_with_merge_request_data idSetter emptyTask mrWithEstimate
    none false false

def updC7bres : Task × List MergeRequestRef :=
  match updC7b with
  | .ok r => r
  | .error _ => (emptyTask, [])

/-- C8 fixtures: a task manually advanced to 40% against a record with no
checklist items. -/
def task40 : Task := { emptyTask with percent_complete := 40 }

def updC8 : Except PyErr (Task × List MergeRequestRef) :=
  update_task_with_merge_request_data idSetter task40 ⟨sampleData 9, []⟩
    none false false

def updC8res : Task × List MergeRequestRef :=
  match updC8 with
  | .ok r => r
  | .error _ => (emptyTask, [])

/-- C10 witness run: a plain non-moved record synchronized normally. -/
def updC10 : Except PyErr (Task × List MergeRequestRef) :=
  update_task_with_merge_request_data idSetter emptyTask ⟨sampleData 8, []⟩
    none false false

def updC10res : Task × List MergeRequestRef :=
  match updC10 with
  | .ok r => r
  | .error _ => (emptyTask, [])

/-- C4 fixtures: two records, a task whose back-reference names the first
and whose hyperlink names the second, and a task with a stale
back-reference and a valid hyperlink. -/
def dataA : MRData := sampleData 11
def dataB : MRData := sampleData 12

def finderAB : MergeRequestFinder :=
  match mkMergeRequestFinder [⟨dataA, []⟩, ⟨dataB, []⟩] with
  | .ok f => f
  | .error _ => ⟨[], []⟩

def taskRefAHyperB : Task :=
  { set_merge_request_ref_to_task emptyTask dataA with
      hyperlink_address := some dataB.web_url }

def taskStaleRefHyperB : Task :=
  { set_merge_request_ref_to_task emptyTask (sampleData 99) with
      hyperlink_address := some dataB.web_url }

/-- C5 fixtures: A is superseded by B, C is independent; one existing task
already matches B. -/
def dataA5 : MRData := { sampleData 1 with moved_to_id := some 2 }
def dataB5 : MRData := sampleData 2
def dataC5 : MRData := sampleData 3

def mrs5 : List MergeRequest :=
  [⟨dataA5, []⟩, ⟨dataB5, []⟩, ⟨dataC5, []⟩]

def doc5 : List (Option Task) :=
  [some (set_merge_request_ref_to_task emptyTask dataB5)]

def run5 : Except SyncErr RunResult :=
  sync_gitlab_merge_requests_to_ms_project doc5 mrs5 gitlabURL0 idSetter none

def res5 : RunResult :=
  match run5 with
  | .ok r => r
  | .error _ => ⟨[], [], []⟩

/-! ## Derived chain observables used to state C3 and C10 -/

/-- The refs gathered into `parent_ids` by one call of the synchronizer:
the given record's ref, then — when its move reference is both declared
and attached — the refs gathered from the successor. -/
def visitedRefsAux : MRData → List MRData → List MergeRequestRef
  | d, rest =>
    get_merge_request_ref_id d ::
      (match d.moved_to_id with
       | some _ =>
         match rest with
         | d2 :: r2 => visitedRefsAux d2 r2
         | [] => []
       | none => [])

def visitedRefs (mr : MergeRequest) : List MergeRequestRef :=
  visitedRefsAux mr.data mr.restChain

/-- The move chain starting here ends in a declared-but-unattached move
reference. -/
def chainUnresolvedAux : MRData → List MRData → Bool
  | d, rest =>
    d.moved_to_id.isSome &&
      (match rest with
       | [] => true
       | d2 :: r2 => chainUnresolvedAux d2 r2)

def chainUnresolved (mr : MergeRequest) : Bool :=
  chainUnresolvedAux mr.data mr.restChain

/-- `workAtCheck d t`: the value of `task.work` at the moment the duration
guard reads it — the record's truncated estimate if the task is a leaf and
the record provides one, the task's own work otherwise. -/
def workAtCheck (d : MRData) (t : Task) : Int :=
  if !t.has_children then
    match d.time_estimated with
    | some e => e.pyInt
    | none => t.work
  else t.work

/-- Setter-neutrality contract for the external type-policy collaborator:
the callbacks may retype the task but leave the scheduling fields that
claims C7 and C8 are about (duration, estimated flag, work, child flag,
percent complete) untouched. -/
def PreservesSchedulingFields (ts : TaskTyperSetter) : Prop :=
  (∀ mr t b,
    (ts.set_task_type_before_sync mr t b).1.duration = t.duration ∧
    (ts.set_task_type_before_sync mr t b).1.estimated = t.estimated ∧
    (ts.set_task_type_before_sync mr t b).1.work = t.work ∧
    (ts.set_task_type_before_sync mr t b).1.has_children = t.has_children ∧
    (ts.set_task_type_before_sync mr t b).1.percent_complete = t.percent_complete) ∧
  (∀ mr t,
    (ts.set_task_type_after_sync mr t).1.duration = t.duration ∧
    (ts.set_task_type_after_sync mr t).1.percent_complete = t.percent_complete)

/-! ## Key sequences of a record list (observables used to state C1/C5) -/

/-- The `MergeRequestRef` keys of a record list, in input order. -/
def refKeys (mrs : List MergeRequest) : List MergeRequestRef :=
  mrs.map (fun mr => get_merge_request_ref_id mr.data)

/-- The `WebURL` keys of a record list, in input order. -/
def urlKeys (mrs : List MergeRequest) : List WebURL :=
  mrs.map (fun mr => get_merge_request_web_url mr.data)

/-- The ref-id dictionary entries `MergeRequestFinder.__init__` inserts
for a record list. -/
def refBindings (mrs : List MergeRequest) :
    List (MergeRequestRef × MergeRequest) :=
  mrs.map (fun mr => (get_merge_request_ref_id mr.data, mr))

/-- The web-url dictionary entries `MergeRequestFinder.__init__` inserts
for a record list. -/
def urlBindings (mrs : List MergeRequest) :
    List (WebURL × MergeRequest) :=
  mrs.map (fun mr => (get_merge_request_web_url mr.data, mr))

/-- C1 failure fixture: a record re-using `dataA`'s id under a different
URL. -/
def dataDupRef : MRData :=
  { sampleData 11 with
      web_url := str "https://gitlab.example.com/g/q/-/merge_requests/11" }

/-- The duplicate-reference error produced on the C1 failure fixture. -/
def dupErrC1 : DupErr :=
  match mkMergeRequestFinder [⟨dataA, []⟩, ⟨dataDupRef, []⟩] with
  | .error e => e
  | .ok _ => ⟨⟨dataA, []⟩, ⟨dataA, []⟩, true⟩

end SGMP

/-! # Theorems -/

/-! ## Decimal rendering / parsing infrastructure -/

theorem alookup_append {α β : Type} [DecidableEq α] (xs ys : List (α × β)) (k : α) :
    alookup (xs ++ ys) k =
      match alookup xs k with
      | some v => some v
      | none => alookup ys k := by
  induction xs with
  | nil => simp [alookup]
  | cons p rest ih =>
    cases p with
    | mk a b =>
      by_cases h : a = k <;> simp [alookup, h, ih]

theorem parseDigit_digitChar {d : Nat} (h : d < 10) :
    parseDigit (digitChar d) = some d := by
  interval_cases d <;> decide

theorem natReprAux_mem : ∀ n fuel : Nat, n ≤ fuel →
    ∀ c ∈ natReprAux fuel n, ∃ d, d < 10 ∧ c = digitChar d := by
  intro n
  induction n using Nat.strong_induction_on with
  | _ n ih =>
    intro fuel hle c hc
    cases fuel with
    | zero =>
      obtain rfl : n = 0 := by omega
      simp only [natReprAux, List.mem_singleton] at hc
      exact ⟨0, by omega, hc⟩
    | succ fuel =>
      simp only [natReprAux] at hc
      by_cases h10 : n < 10
      · rw [if_pos h10] at hc
        simp only [List.mem_singleton] at hc
        exact ⟨n, h10, hc⟩
      · rw [if_neg h10] at hc
        rcases List.mem_append.mp hc with h | h
        · exact ih (n / 10) (by omega) fuel (by omega) c h
        · simp only [List.mem_singleton] at h
          exact ⟨n % 10, Nat.mod_lt _ (by omega), h⟩

theorem natReprAux_ne_nil (fuel n : Nat) : natReprAux fuel n ≠ [] := by
  cases fuel <;> simp only [natReprAux]
  · simp
  · split <;> simp

theorem natReprChars_mem {n : Nat} :
    ∀ c ∈ natReprChars n, ∃ d, d < 10 ∧ c = digitChar d :=
  natReprAux_mem n n le_rfl

theorem natReprChars_ne_nil (n : Nat) : natReprChars n ≠ [] :=
  natReprAux_ne_nil n n

theorem parseNatAux_append (xs ys : List Char) : ∀ acc,
    parseNatAux acc (xs ++ ys) =
      match parseNatAux acc xs with
      | some a => parseNatAux a ys
      | none => none := by
  induction xs with
  | nil => intro acc; simp [parseNatAux]
  | cons c rest ih =>
    intro acc
    simp only [List.cons_append, parseNatAux]
    cases parseDigit c <;> simp [ih]

theorem parseNatAux_natReprAux : ∀ n fuel : Nat, n ≤ fuel → ∀ acc,
    parseNatAux acc (natReprAux fuel n) =
      some (acc * 10 ^ (natReprAux fuel n).length + n) := by
  intro n
  induction n using Nat.strong_induction_on with
  | _ n ih =>
    intro fuel hle acc
    cases fuel with
    | zero =>
      obtain rfl : n = 0 := by omega
      simp [natReprAux, parseNatAux, parseDigit_digitChar (by omega : (0 : Nat) < 10)]
    | succ fuel =>
      simp only [natReprAux]
      by_cases h10 : n < 10
      · rw [if_pos h10]
        simp [parseNatAux, parseDigit_digitChar h10]
      · rw [if_neg h10]
        rw [parseNatAux_append]
        rw [ih (n / 10) (by omega) fuel (by omega) acc]
        simp only [parseNatAux, parseDigit_digitChar (Nat.mod_lt n (by omega)),
          List.length_append, List.length_singleton]
        have h1 : (acc * 10 ^ (natReprAux fuel (n / 10)).length + n / 10) * 10 + n % 10 =
            acc * (10 ^ (natReprAux fuel (n / 10)).length * 10) + (10 * (n / 10) + n % 10) := by
          ring
        rw [h1, Nat.div_add_mod, ← pow_succ]

theorem parseNatChars_natReprChars (n : Nat) :
    parseNatChars (natReprChars n) = some n := by
  unfold natReprChars
  cases h : natReprAux n n with
  | nil => exact absurd h (natReprAux_ne_nil n n)
  | cons c cs =>
    have h2 := parseNatAux_natReprAux n n le_rfl 0
    rw [h] at h2
    simpa [parseNatChars] using h2

theorem dropWhile_eq_self_of_forall {p : Char → Bool} :
    ∀ cs : List Char, (∀ c ∈ cs, p c = false) → cs.dropWhile p = cs
  | [], _ => rfl
  | c :: cs, h => by simp [List.dropWhile_cons, h c (by simp)]

theorem trimChars_eq_self {cs : Str} (h : ∀ c ∈ cs, c.isWhitespace = false) :
    trimChars cs = cs := by
  unfold trimChars
  rw [dropWhile_eq_self_of_forall cs h,
    dropWhile_eq_self_of_forall cs.reverse
      (fun c hc => h c (List.mem_reverse.mp hc)),
    List.reverse_reverse]

theorem digitChar_facts {d : Nat} (h : d < 10) :
    digitChar d ≠ '-' ∧ digitChar d ≠ '+' ∧ digitChar d ≠ ';' ∧
      (digitChar d).isWhitespace = false := by
  interval_cases d <;> exact ⟨by decide, by decide, by decide, by decide⟩

theorem intReprChars_facts (i : Int) :
    ∀ c ∈ intReprChars i, c ≠ ';' ∧ c.isWhitespace = false := by
  unfold intReprChars
  split
  · intro c hc
    rcases List.mem_cons.mp hc with rfl | hmem
    · exact ⟨by decide, by decide⟩
    · obtain ⟨d, hd, rfl⟩ := natReprChars_mem c hmem
      exact ⟨(digitChar_facts hd).2.2.1, (digitChar_facts hd).2.2.2⟩
  · intro c hc
    obtain ⟨d, hd, rfl⟩ := natReprChars_mem c hc
    exact ⟨(digitChar_facts hd).2.2.1, (digitChar_facts hd).2.2.2⟩

theorem pyIntOfChars_intReprChars (i : Int) :
    pyIntOfChars (intReprChars i) = some i := by
  unfold pyIntOfChars
  rw [trimChars_eq_self (fun c hc => (intReprChars_facts i c hc).2)]
  by_cases hi : i < 0
  · have h2 : (i.natAbs : Int) = -i := Int.ofNat_natAbs_of_nonpos (le_of_lt hi)
    simp only [intReprChars, if_pos hi, parseIntChars, if_pos rfl,
      parseNatChars_natReprChars]
    simp [h2]
  · cases h : natReprChars i.toNat with
    | nil => exact absurd h (natReprChars_ne_nil _)
    | cons c cs =>
      have hcmem : c ∈ natReprChars i.toNat := by rw [h]; simp
      obtain ⟨d, hd, rfl⟩ := natReprChars_mem c hcmem
      simp only [intReprChars, if_neg hi, h, parseIntChars,
        if_neg (digitChar_facts hd).1, if_neg (digitChar_facts hd).2.1]
      rw [← h, parseNatChars_natReprChars]
      simp [Int.toNat_of_nonneg (not_lt.mp hi)]

theorem isPrefixOf_append_self : ∀ xs ys : List Char,
    xs.isPrefixOf (xs ++ ys) = true
  | [], _ => by simp [List.isPrefixOf]
  | x :: xs, ys => by
    simp [List.isPrefixOf, isPrefixOf_append_self xs ys]

theorem takeWhile_append_eq {p : Char → Bool} :
    ∀ (xs : List Char) {y : Char} {ys : List Char},
      (∀ c ∈ xs, p c = true) → p y = false →
      List.takeWhile p (xs ++ y :: ys) = xs
  | [], y, ys, _, hy => by simp [List.takeWhile_cons, hy]
  | x :: xs, y, ys, h, hy => by
    simp [List.takeWhile_cons, h x (by simp),
      takeWhile_append_eq xs (fun c hc => h c (by simp [hc])) hy]

namespace SGMP

/-- The encoded back-reference, viewed as the prefix, the rendered id, and
a semicolon-led tail. -/
theorem encode_back_reference_shape (d : MRData) :
    encode_back_reference d =
      MR_PREFIX ++ (intReprChars d.id ++ ';' ::
        (pyStrOptInt d.group_id ++ [';'] ++ intReprChars d.project_id
          ++ [';'] ++ intReprChars d.iid)) := by
  unfold encode_back_reference
  simp [List.append_assoc]

/-- Claim C6: for every task and merge request, decoding the freshly
written back-reference returns exactly `MergeRequestRef(merge_request.id)`
(the identifier and only the identifier); and for every task whose
`text30` field is absent, empty, or does not start with `MR_PREFIX`,
decoding returns `None`. -/
theorem claim_C6_backref_roundtrip :
    (∀ (task : Task) (d : MRData),
      get_merge_request_ref_from_task (some (set_merge_request_ref_to_task task d)) =
        .ok (some ⟨d.id⟩)) ∧
    (∀ task : Task,
      (task.text30 = none ∨ task.text30 = some [] ∨
        (∀ s, task.text30 = some s → MR_PREFIX.isPrefixOf s = false)) →
      get_merge_request_ref_from_task (some task) = .ok none) := by
  constructor
  · intro task d
    have hpre : MR_PREFIX ≠ ([] : List Char) := by decide
    unfold get_merge_request_ref_from_task set_merge_request_ref_to_task
    simp only [encode_back_reference_shape]
    have hne : MR_PREFIX ++ (intReprChars d.id ++ ';' ::
        (pyStrOptInt d.group_id ++ [';'] ++ intReprChars d.project_id
          ++ [';'] ++ intReprChars d.iid)) ≠ [] := by
      intro hcon
      exact hpre (List.append_eq_nil.mp hcon).1
    rw [if_pos ⟨hne, isPrefixOf_append_self _ _⟩]
    rw [List.drop_left]
    rw [takeWhile_append_eq (intReprChars d.id)
      (fun c hc => by simp [(intReprChars_facts d.id c hc).1]) (by decide)]
    rw [pyIntOfChars_intReprChars]
  · intro task h
    cases htext : task.text30 with
    | none => simp [get_merge_request_ref_from_task, htext]
    | some s =>
      simp only [get_merge_request_ref_from_task, htext]
      rcases h with h | h | h
      · rw [htext] at h; exact absurd h (by simp)
      · rw [htext] at h
        obtain rfl : s = [] := by injection h
        simp
      · have hpf := h s htext
        rw [if_neg (fun hc => by rw [hpf] at hc; exact Bool.noConfusion hc.2)]

/-- Witness for C6 at concrete inputs. -/
theorem claim_C6_backref_roundtrip_witness :
    get_merge_request_ref_from_task
      (some (set_merge_request_ref_to_task emptyTask (sampleData 42))) =
        .ok (some ⟨42⟩) ∧
    get_merge_request_ref_from_task (some emptyTask) = .ok none :=
  ⟨claim_C6_backref_roundtrip.1 emptyTask (sampleData 42),
   claim_C6_backref_roundtrip.2 emptyTask (Or.inl rfl)⟩

/-- Claim C9: `by_ref_id` and `by_web_url` return `None` exactly for a
`None` key; a non-`None` key present in the index returns the record
stored under it, and a non-`None` key absent from the index raises
`KeyError` rather than returning `None`. -/
theorem claim_C9_lookup_contract :
    ∀ f : MergeRequestFinder,
      (f.by_ref_id none = .ok none) ∧
      (f.by_web_url none = .ok none) ∧
      (∀ r mr, alookup f.ref_id_to_merge_request r = some mr →
        f.by_ref_id (some r) = .ok (some mr)) ∧
      (∀ r, alookup f.ref_id_to_merge_request r = none →
        f.by_ref_id (some r) = .error ()) ∧
      (∀ w mr, alookup f.web_url_to_merge_request w = some mr →
        f.by_web_url (some w) = .ok (some mr)) ∧
      (∀ w, alookup f.web_url_to_merge_request w = none →
        f.by_web_url (some w) = .error ()) := by
  intro f
  refine ⟨rfl, rfl, ?_, ?_, ?_, ?_⟩
  · intro r mr h; simp [MergeRequestFinder.by_ref_id, h]
  · intro r h; simp [MergeRequestFinder.by_ref_id, h]
  · intro w mr h; simp [MergeRequestFinder.by_web_url, h]
  · intro w h; simp [MergeRequestFinder.by_web_url, h]

/-- Witness for C9 on a concrete two-record index: present key, absent
key, and `None` key. -/
theorem claim_C9_lookup_contract_witness :
    finderAB.by_ref_id none = .ok none ∧
    finderAB.by_ref_id (some ⟨11⟩) = .ok (some ⟨dataA, []⟩) ∧
    finderAB.by_ref_id (some ⟨99⟩) = .error () :=
  ⟨(claim_C9_lookup_contract finderAB).1,
   (claim_C9_lookup_contract finderAB).2.2.1 ⟨11⟩ ⟨dataA, []⟩ (by decide),
   (claim_C9_lookup_contract finderAB).2.2.2.1 ⟨99⟩ (by decide)⟩

/-- Claim C2 (code bug): on a record set holding a single record whose
declared successor (id 2) is absent from the index, the embedded
orchestrator aborts with the uncaught `KeyError` raised by `by_ref_id`
inside the move-resolution pass — it neither leaves the moved reference
unset nor completes the run, contradicting the claim (and the dead
`is not None` guard at `sync_mrs.py:266` together with the
`MovedMergeRequestNotDefined` machinery shows the abort is a slip, not
the design). -/
theorem claim_C2_absent_successor_aborts :
    sync_gitlab_merge_requests_to_ms_project [] [mrMovedOutside] gitlabURL0
      idSetter none = .error (.keyError ⟨2⟩) := by
  rfl

/-- The only exception escaping the field-write body is an uncaught
interpreter error. -/
theorem syncPercentStep_error_eq (mr : MergeRequest) (t : Task) (e : PyErr)
    (h : syncPercentStep mr t = .error e) : e = .uncaught := by
  unfold syncPercentStep at h
  split at h
  · cases hp : mr.percentage_tasks_done with
    | some p => rw [hp] at h; exact absurd h (by simp)
    | none =>
      rw [hp] at h
      injection h with h2
      exact h2.symm
  · exact absurd h (by simp)

theorem syncWorkPercent_error_eq (mr : MergeRequest) (t : Task) (e : PyErr)
    (h : syncWorkPercent mr t = .error e) : e = .uncaught :=
  syncPercentStep_error_eq mr _ e h

theorem syncBody_error_eq (ts : TaskTyperSetter) (task : Task)
    (mr : MergeRequest) (ia : Bool) (e : PyErr)
    (h : syncBody ts task mr ia = .error e) : e = .uncaught := by
  unfold syncBody at h
  cases hbe : ts.set_task_type_before_sync mr (set_merge_request_ref_to_task task mr.data) ia with
  | mk t1 flag =>
    rw [hbe] at h
    cases flag with
    | false => exact absurd h (by simp)
    | true =>
      simp only at h
      cases hwp : syncWorkPercent mr (syncDuration (syncTitleWork mr.data t1)) with
      | ok t2 => rw [hwp] at h; exact absurd h (by simp)
      | error e2 =>
        rw [hwp] at h
        injection h with h2
        rw [← h2]
        exact syncWorkPercent_error_eq mr _ e2 hwp

/-- The refs list produced by one synchronizer call, for both normal and
`MovedMergeRequestNotDefined` outcomes: always the incoming `parent_ids`
followed by the refs of the records actually visited. -/
theorem updateAux_refs_spec :
    ∀ (rest : List MRData) (d : MRData) (ts : TaskTyperSetter) (task : Task)
      (parents? : Option (List MergeRequestRef)) (ig ia : Bool),
      (∀ t' ids,
        updateAux ts task d rest parents? ig ia = .ok (t', ids) →
        ids = parents?.getD [] ++ visitedRefsAux d rest) ∧
      (∀ ids,
        updateAux ts task d rest parents? ig ia = .error (.movedNotDefined ids) →
        ids = parents?.getD [] ++ visitedRefsAux d rest) := by
  intro rest
  induction rest with
  | nil =>
    intro d ts task parents? ig ia
    constructor
    · intro t' ids h
      rw [updateAux] at h
      split at h
      · exact absurd h (by simp)
      · rename_i hm
        rw [visitedRefsAux, hm]
        split at h
        · injection h with h2
          injection h2 with _ h3
          simp [← h3]
        · split at h
          · injection h with h2
            injection h2 with _ h3
            simp [← h3]
          · exact absurd h (by simp)
    · intro ids h
      rw [updateAux] at h
      split at h
      · rename_i hm
        rw [visitedRefsAux, hm]
        injection h with h2
        injection h2 with h3
        simp [← h3]
      · split at h
        · exact absurd h (by simp)
        · split at h
          · exact absurd h (by simp)
          · rename_i e hb
            injection h with h2
            have h5 := syncBody_error_eq _ _ _ _ _ hb
            rw [h2] at h5
            exact absurd h5 (by simp)
  | cons d2 r2 ih =>
    intro d ts task parents? ig ia
    have IH := ih d2 ts task
      (some (parents?.getD [] ++ [get_merge_request_ref_id d])) ig false
    constructor
    · intro t' ids h
      rw [updateAux] at h
      split at h
      · rename_i hm
        rw [visitedRefsAux, hm]
        split at h
        · rename_i r hrec
          injection h with h2
          have h4 := IH.1 r.1 r.2 hrec
          rw [h2] at h4
          simp only [Option.getD_some] at h4
          simp at h4
          simp [h4, List.append_assoc]
        · rename_i ids2 hrec
          injection h with h2
          injection h2 with _ h3
          have h4 := IH.2 ids2 hrec
          simp only [Option.getD_some] at h4
          simp [← h3, h4, List.append_assoc]
        · exact absurd h (by simp)
      · rename_i hm
        rw [visitedRefsAux, hm]
        split at h
        · injection h with h2
          injection h2 with _ h3
          simp [← h3]
        · split at h
          · injection h with h2
            injection h2 with _ h3
            simp [← h3]
          · exact absurd h (by simp)
    · intro ids h
      rw [updateAux] at h
      split at h
      · split at h
        · exact absurd h (by simp)
        · exact absurd h (by simp)
        · exact absurd h (by simp)
      · split at h
        · exact absurd h (by simp)
        · split at h
          · exact absurd h (by simp)
          · rename_i e hb
            injection h with h2
            have h5 := syncBody_error_eq _ _ _ _ _ hb
            rw [h2] at h5
            exact absurd h5 (by simp)

/-- A synchronizer call on a moved record whose chain ends unresolved:
direct unresolution raises; behind at least one attached link the
exception is caught, the task is returned untouched, and the refs
gathered so far come back. -/
theorem updateAux_chain_unresolved :
    ∀ (rest : List MRData) (d : MRData) (ts : TaskTyperSetter) (task : Task)
      (parents? : Option (List MergeRequestRef)) (ig ia : Bool),
      chainUnresolvedAux d rest = true →
      (rest = [] →
        updateAux ts task d rest parents? ig ia =
          .error (.movedNotDefined (parents?.getD [] ++ visitedRefsAux d rest))) ∧
      (rest ≠ [] →
        updateAux ts task d rest parents? ig ia =
          .ok (task, parents?.getD [] ++ visitedRefsAux d rest)) := by
  intro rest
  induction rest with
  | nil =>
    intro d ts task parents? ig ia hc
    rw [chainUnresolvedAux] at hc
    simp only [Bool.and_eq_true] at hc
    obtain ⟨h1, _⟩ := hc
    obtain ⟨j, hj⟩ := Option.isSome_iff_exists.mp h1
    refine ⟨fun _ => ?_, fun hne => absurd rfl hne⟩
    rw [updateAux, visitedRefsAux, hj]
  | cons d2 r2 ih =>
    intro d ts task parents? ig ia hc
    rw [chainUnresolvedAux] at hc
    simp only [Bool.and_eq_true] at hc
    obtain ⟨h1, h2⟩ := hc
    obtain ⟨j, hj⟩ := Option.isSome_iff_exists.mp h1
    refine ⟨fun hco => absurd hco (by simp), fun _ => ?_⟩
    have IH := ih d2 ts task
      (some (parents?.getD [] ++ [get_merge_request_ref_id d])) ig false h2
    rw [updateAux, visitedRefsAux, hj]
    cases hr2 : r2 with
    | nil =>
      subst hr2
      rw [IH.1 rfl]
      simp only [Option.getD_some]
      simp [List.append_assoc]
    | cons d3 r3 =>
      subst hr2
      rw [IH.2 (by simp)]
      simp only [Option.getD_some]
      simp [List.append_assoc]

/-- Claim C3 counterexample: when the record whose declared move is
unresolved is the one passed in directly, the synchronizer does not
return; the `MovedMergeRequestNotDefined` exception propagates to the
caller (`Except.error` in the embedding). -/
theorem claim_C3_counterexample :
    update_task_with_merge_request_data idSetter emptyTask (mrUnresolved 1)
      none false false = .error (.movedNotDefined [⟨1⟩]) := rfl

/-- Claim C3 (amended): for every task and every merge request whose move
reference is declared and attached but whose chain ends, at depth ≥ 1, in
a record with a declared-but-unresolved move, the synchronizer returns
normally with the task completely unmodified and the consumed refs
gathered so far (the warning log is not modelled).  When the unresolved
record is the one passed in directly, the exception propagates instead
(see the counterexample). -/
theorem claim_C3_unresolved_chain_recovers :
    ∀ (ts : TaskTyperSetter) (task : Task) (d d2 : MRData) (r2 : List MRData)
      (parents? : Option (List MergeRequestRef)) (ig ia : Bool),
      d.moved_to_id.isSome = true →
      chainUnresolvedAux d2 r2 = true →
      update_task_with_merge_request_data ts task ⟨d, d2 :: r2⟩ parents? ig ia =
        .ok (task, parents?.getD [] ++ visitedRefs ⟨d, d2 :: r2⟩) := by
  intro ts task d d2 r2 parents? ig ia h1 h2
  have hc : chainUnresolvedAux d (d2 :: r2) = true := by
    rw [chainUnresolvedAux]
    simp [h1, h2]
  exact (updateAux_chain_unresolved (d2 :: r2) d ts task parents? ig ia hc).2
    (by simp)

/-- Witness for C3 at a two-record chain ending unresolved: the task comes
back untouched and both refs are reported. -/
theorem claim_C3_unresolved_chain_recovers_witness :
    update_task_with_merge_request_data idSetter emptyTask mrChainToUnresolved
      none false false = .ok (emptyTask, [⟨1⟩, ⟨2⟩]) := by
  have h := claim_C3_unresolved_chain_recovers idSetter emptyTask
    { sampleData 1 with moved_to_id := some 2 }
    { sampleData 2 with moved_to_id := some 99 } [] none false false
    (by decide) (by decide)
  exact h

/-- Claim C10 counterexample: with `ignore_merge_request=true` and a
record that itself declares an unresolved move, the synchronizer does not
return a list at all — the exception propagates. -/
theorem claim_C10_counterexample :
    update_task_with_merge_request_data idSetter emptyTask (mrUnresolved 7)
      none true false = .error (.movedNotDefined [⟨7⟩]) := rfl

/-- Claim C10 (amended): whenever
`update_task_with_merge_request_data` returns (for every flag combination
and any type-setter behavior; it fails to return only when the record
passed in itself declares an unresolved move, or on an uncaught
interpreter error), the returned list is the incoming `parent_ids`
followed by the refs of the records visited along the resolved move
chain, in visit order, starting with the given record's ref — with no
`parent_ids` passed, the original record's ref is first. -/
theorem claim_C10_returned_refs :
    ∀ (ts : TaskTyperSetter) (task : Task) (mr : MergeRequest)
      (parents? : Option (List MergeRequestRef)) (ig ia : Bool)
      (t' : Task) (ids : List MergeRequestRef),
      update_task_with_merge_request_data ts task mr parents? ig ia =
        .ok (t', ids) →
      ids = parents?.getD [] ++ visitedRefs mr ∧
      (visitedRefs mr).head? = some (get_merge_request_ref_id mr.data) ∧
      (parents? = none →
        ids.head? = some (get_merge_request_ref_id mr.data)) := by
  intro ts task mr parents? ig ia t' ids h
  have h1 := (updateAux_refs_spec mr.restChain mr.data ts task parents? ig ia).1
    t' ids h
  have hhead : (visitedRefs mr).head? =
      some (get_merge_request_ref_id mr.data) := by
    rw [visitedRefs]
    cases hm : mr.data.moved_to_id <;> cases hr : mr.restChain <;>
      simp [visitedRefsAux, hm]
  refine ⟨h1, hhead, fun hp => ?_⟩
  subst hp
  simp only [Option.getD_none, List.nil_append] at h1
  rw [h1]
  rw [visitedRefs] at hhead
  exact hhead

/-- Witness for C10 at a plain non-moved record. -/
theorem claim_C10_returned_refs_witness :
    updC10 = .ok updC10res ∧ updC10res.2 = [⟨8⟩] := by
  have h : updC10 = .ok (updC10res.1, updC10res.2) := rfl
  have h2 := claim_C10_returned_refs idSetter emptyTask ⟨sampleData 8, []⟩
    none false false updC10res.1 updC10res.2 h
  refine ⟨rfl, ?_⟩
  rw [h2.1]
  rfl

/-- Claim C4: the task matcher resolves via the decodable back-reference
first, even when the hyperlink would resolve to a different record; a
back-reference naming an absent identifier is caught and matching falls
through to the URL step; when neither key resolves, the matcher returns
`None` without raising. -/
theorem claim_C4_matching_precedence :
    (∀ (task : Task) (f : MergeRequestFinder) (u : WebURL)
      (r : MergeRequestRef) (mrA : MergeRequest),
      get_merge_request_ref_from_task (some task) = .ok (some r) →
      alookup f.ref_id_to_merge_request r = some mrA →
      find_related_merge_request task f u = .ok (some mrA)) ∧
    (∀ (task : Task) (f : MergeRequestFinder) (u : WebURL)
      (r : MergeRequestRef) (mrB : MergeRequest) (w : WebURL),
      get_merge_request_ref_from_task (some task) = .ok (some r) →
      alookup f.ref_id_to_merge_request r = none →
      get_weburl_from_task (some task) u = some w →
      alookup f.web_url_to_merge_request w = some mrB →
      find_related_merge_request task f u = .ok (some mrB)) ∧
    (∀ (task : Task) (f : MergeRequestFinder) (u : WebURL)
      (ro : Option MergeRequestRef),
      get_merge_request_ref_from_task (some task) = .ok ro →
      (∀ r, ro = some r → alookup f.ref_id_to_merge_request r = none) →
      (∀ w, get_weburl_from_task (some task) u = some w →
        alookup f.web_url_to_merge_request w = none) →
      find_related_merge_request task f u = .ok none) := by
  refine ⟨?_, ?_, ?_⟩
  · intro task f u r mrA hdec hlook
    rw [find_related_merge_request, hdec]
    simp [MergeRequestFinder.by_ref_id, hlook]
  · intro task f u r mrB w hdec hlook hurl hlook2
    rw [find_related_merge_request, hdec]
    simp [MergeRequestFinder.by_ref_id, hlook,
      MergeRequestFinder.by_web_url, hurl, hlook2]
  · intro task f u ro hdec hro hw
    rw [find_related_merge_request, hdec]
    cases ro with
    | none =>
      cases hu : get_weburl_from_task (some task) u with
      | none => simp [MergeRequestFinder.by_ref_id,
          MergeRequestFinder.by_web_url, hu]
      | some w => simp [MergeRequestFinder.by_ref_id,
          MergeRequestFinder.by_web_url, hu, hw w hu]
    | some r =>
      cases hu : get_weburl_from_task (some task) u with
      | none => simp [MergeRequestFinder.by_ref_id, hro r rfl,
          MergeRequestFinder.by_web_url, hu]
      | some w => simp [MergeRequestFinder.by_ref_id, hro r rfl,
          MergeRequestFinder.by_web_url, hu, hw w hu]

/-- Witness for C4: a task whose back-reference names record A while its
hyperlink names record B resolves to A; a task with a stale back-reference
(id 99) and B's hyperlink resolves to B; a task with neither key resolves
to `None`. -/
theorem claim_C4_matching_precedence_witness :
    find_related_merge_request taskRefAHyperB finderAB gitlabURL0 =
      .ok (some ⟨dataA, []⟩) ∧
    find_related_merge_request taskStaleRefHyperB finderAB gitlabURL0 =
      .ok (some ⟨dataB, []⟩) ∧
    find_related_merge_request emptyTask finderAB gitlabURL0 = .ok none := by
  refine ⟨?_, ?_, ?_⟩
  · exact claim_C4_matching_precedence.1 taskRefAHyperB finderAB gitlabURL0
      ⟨11⟩ ⟨dataA, []⟩ (by rfl) (by decide)
  · exact claim_C4_matching_precedence.2.1 taskStaleRefHyperB finderAB
      gitlabURL0 ⟨99⟩ ⟨dataB, []⟩ ⟨dataB.web_url⟩ (by rfl) (by decide)
      (by rfl) (by decide)
  · refine claim_C4_matching_precedence.2.2 emptyTask finderAB gitlabURL0
      none (by rfl) (fun r hr => by exact absurd hr (by simp)) ?_
    intro w hw
    rw [show get_weburl_from_task (some emptyTask) gitlabURL0 = none from rfl]
      at hw
    exact absurd hw (by simp)

/-! ## Field-effect lemmas for the synchronizer body (C7, C8) -/

theorem set_ref_fields (task : Task) (d : MRData) :
    (set_merge_request_ref_to_task task d).duration = task.duration ∧
    (set_merge_request_ref_to_task task d).estimated = task.estimated ∧
    (set_merge_request_ref_to_task task d).work = task.work ∧
    (set_merge_request_ref_to_task task d).has_children = task.has_children ∧
    (set_merge_request_ref_to_task task d).percent_complete =
      task.percent_complete :=
  ⟨rfl, rfl, rfl, rfl, rfl⟩

theorem syncName_fields (d : MRData) (t : Task) :
    (syncName d t).duration = t.duration ∧
    (syncName d t).estimated = t.estimated ∧
    (syncName d t).work = t.work ∧
    (syncName d t).has_children = t.has_children ∧
    (syncName d t).percent_complete = t.percent_complete :=
  ⟨rfl, rfl, rfl, rfl, rfl⟩

theorem syncDeadline_fields (d : MRData) (t : Task) :
    (syncDeadline d t).duration = t.duration ∧
    (syncDeadline d t).estimated = t.estimated ∧
    (syncDeadline d t).work = t.work ∧
    (syncDeadline d t).has_children = t.has_children ∧
    (syncDeadline d t).percent_complete = t.percent_complete := by
  unfold syncDeadline
  cases d.due_date <;> exact ⟨rfl, rfl, rfl, rfl, rfl⟩

theorem syncWork_fields (d : MRData) (t : Task) :
    (syncWork d t).duration = t.duration ∧
    (syncWork d t).estimated = t.estimated ∧
    (syncWork d t).has_children = t.has_children ∧
    (syncWork d t).percent_complete = t.percent_complete ∧
    (syncWork d t).work = workAtCheck d t := by
  unfold syncWork workAtCheck
  cases hc : t.has_children <;> cases he : d.time_estimated <;>
    simp [hc, he]

theorem workAtCheck_congr (d : MRData) {t1 t2 : Task}
    (hw : t1.work = t2.work) (hc : t1.has_children = t2.has_children) :
    workAtCheck d t1 = workAtCheck d t2 := by
  unfold workAtCheck
  rw [hw, hc]

theorem syncDuration_spec (t : Task) :
    ((t.duration = some DEFAULT_DURATION ∧ t.estimated = true ∧ t.work > 0) →
      (syncDuration t).duration = some t.work) ∧
    (¬(t.duration = some DEFAULT_DURATION ∧ t.estimated = true ∧ t.work > 0) →
      (syncDuration t).duration = t.duration) ∧
    (syncDuration t).percent_complete = t.percent_complete := by
  unfold syncDuration
  by_cases hcond : t.duration = some DEFAULT_DURATION ∧ t.estimated = true ∧
      t.work > 0
  · rw [if_pos hcond]
    exact ⟨fun _ => rfl, fun hn => absurd hcond hn, rfl⟩
  · rw [if_neg hcond]
    exact ⟨fun hp => absurd hp hcond, fun _ => rfl, rfl⟩

theorem syncActualWork_fields (d : MRData) (t : Task) :
    (syncActualWork d t).duration = t.duration ∧
    (syncActualWork d t).percent_complete = t.percent_complete := by
  unfold syncActualWork
  refine ⟨?_, ?_⟩ <;> (split <;> rfl)

theorem syncPercentStep_spec (mr : MergeRequest) (t : Task) :
    ∀ t2, syncPercentStep mr t = .ok t2 →
      t2.duration = t.duration ∧
      (t2.percent_complete ≠ t.percent_complete →
        (mr.data.has_tasks = true ∨ t.percent_complete = 0)) := by
  intro t2 h
  unfold syncPercentStep at h
  split at h
  · rename_i hcond
    cases hp : mr.percentage_tasks_done with
    | some p =>
      rw [hp] at h
      injection h with h2
      rw [← h2]
      exact ⟨rfl, fun _ => hcond⟩
    | none => rw [hp] at h; exact absurd h (by simp)
  · rename_i hcond
    injection h with h2
    rw [← h2]
    exact ⟨rfl, fun hne => absurd rfl hne⟩

theorem syncLinksDates_fields (d : MRData) (t : Task) :
    (syncLinksDates d t).duration = t.duration ∧
    (syncLinksDates d t).percent_complete = t.percent_complete := by
  unfold syncLinksDates syncFinish syncResource syncLinks
  cases d.assignees <;> by_cases hc : d.is_closed <;> simp [hc]

/-- The percent computation never fails for a non-moved record with
well-formed completion counters (`has_tasks` implies a positive count). -/
theorem percentageAux_some (d : MRData) (rest : List MRData)
    (hmv : d.moved_to_id = none)
    (hwf : d.has_tasks = true → d.task_count ≠ 0) :
    ∃ p, percentageAux d rest = some p := by
  by_cases hcl : d.is_closed = true
  · refine ⟨100, ?_⟩
    cases rest <;> simp [percentageAux, hcl, hmv]
  · by_cases hht : d.has_tasks = true
    · refine ⟨(roundHalfEven (d.completed_count * 100) d.task_count : Nat), ?_⟩
      cases rest <;> simp [percentageAux, hcl, hht, hwf hht]
    · refine ⟨0, ?_⟩
      cases rest <;> simp [percentageAux, hcl, hht]

theorem syncPercentStep_ok (mr : MergeRequest) (t : Task)
    (hmv : mr.data.moved_to_id = none)
    (hwf : mr.data.has_tasks = true → mr.data.task_count ≠ 0) :
    ∃ t2, syncPercentStep mr t = .ok t2 := by
  unfold syncPercentStep
  by_cases hcond : mr.data.has_tasks = true ∨ t.percent_complete = (0 : Int)
  · obtain ⟨p, hp⟩ := percentageAux_some mr.data mr.restChain hmv hwf
    rw [if_pos hcond, show mr.percentage_tasks_done =
      percentageAux mr.data mr.restChain from rfl, hp]
    exact ⟨_, rfl⟩
  · rw [if_neg hcond]
    exact ⟨_, rfl⟩

/-- The body always returns a (possibly partially written) task when the
record is non-moved and its counters are well-formed. -/
theorem syncBody_ok (ts : TaskTyperSetter) (task : Task) (mr : MergeRequest)
    (ia : Bool) (hmv : mr.data.moved_to_id = none)
    (hwf : mr.data.has_tasks = true → mr.data.task_count ≠ 0) :
    ∃ t', syncBody ts task mr ia = .ok t' := by
  unfold syncBody
  cases hbe : ts.set_task_type_before_sync mr
      (set_merge_request_ref_to_task task mr.data) ia with
  | mk t1 flag =>
    cases flag with
    | false => exact ⟨t1, rfl⟩
    | true =>
      obtain ⟨t2, hwp⟩ := syncPercentStep_ok mr
        (syncActualWork mr.data (syncDuration (syncTitleWork mr.data t1)))
        hmv hwf
      have hgoal : syncWorkPercent mr (syncDuration (syncTitleWork mr.data t1)) =
          .ok t2 := by
        rw [show syncWorkPercent mr (syncDuration (syncTitleWork mr.data t1)) =
          syncPercentStep mr (syncActualWork mr.data
            (syncDuration (syncTitleWork mr.data t1))) from rfl]
        exact hwp
      exact ⟨(ts.set_task_type_after_sync mr (syncLinksDates mr.data t2)).1,
        by simp [hgoal]⟩

/-- Core field-effect analysis of the synchronizer body: duration is
overwritten only by the guarded write (with the work value as read at the
guard), and percent-complete only under its own guard — under a
type-setter that preserves the scheduling fields. -/
theorem syncBody_fields (ts : TaskTyperSetter) (task : Task)
    (mr : MergeRequest) (ia : Bool) (hts : PreservesSchedulingFields ts) :
    ∀ t', syncBody ts task mr ia = .ok t' →
      (t'.duration ≠ task.duration →
        task.duration = some DEFAULT_DURATION ∧ task.estimated = true ∧
        workAtCheck mr.data task > 0 ∧
        t'.duration = some (workAtCheck mr.data task)) ∧
      (t'.percent_complete ≠ task.percent_complete →
        (mr.data.has_tasks = true ∨ task.percent_complete = 0)) := by
  intro t' h
  unfold syncBody at h
  cases hbe : ts.set_task_type_before_sync mr
      (set_merge_request_ref_to_task task mr.data) ia with
  | mk t1 flag =>
    rw [hbe] at h
    obtain ⟨hd0, he0, hw0, hc0, hp0⟩ :=
      set_ref_fields task mr.data
    have hts1 := (hts.1 mr (set_merge_request_ref_to_task task mr.data) ia)
    rw [hbe] at hts1
    obtain ⟨hd1, he1, hw1, hc1, hp1⟩ := hts1
    have hd1' : t1.duration = task.duration := by rw [hd1, hd0]
    have he1' : t1.estimated = task.estimated := by rw [he1, he0]
    have hw1' : t1.work = task.work := by rw [hw1, hw0]
    have hc1' : t1.has_children = task.has_children := by rw [hc1, hc0]
    have hp1' : t1.percent_complete = task.percent_complete := by
      rw [hp1, hp0]
    cases flag with
    | false =>
      simp only at h
      injection h with h2
      rw [← h2]
      exact ⟨fun hne => absurd hd1' hne,
        fun hne => absurd hp1' hne⟩
    | true =>
      simp only at h
      obtain ⟨hn1, hn2, hn3, hn4, hn5⟩ := syncName_fields mr.data t1
      obtain ⟨hq1, hq2, hq3, hq4, hq5⟩ :=
        syncDeadline_fields mr.data (syncName mr.data t1)
      obtain ⟨hr1, hr2, hr3, hr4, hr5⟩ :=
        syncWork_fields mr.data (syncDeadline mr.data (syncName mr.data t1))
      set t2 := syncTitleWork mr.data t1 with ht2
      have hd2 : t2.duration = task.duration := by
        rw [ht2]; unfold syncTitleWork; rw [hr1, hq1, hn1, hd1']
      have he2 : t2.estimated = task.estimated := by
        rw [ht2]; unfold syncTitleWork; rw [hr2, hq2, hn2, he1']
      have hp2 : t2.percent_complete = task.percent_complete := by
        rw [ht2]; unfold syncTitleWork; rw [hr4, hq5, hn5, hp1']
      have hw2 : t2.work = workAtCheck mr.data task := by
        rw [ht2]; unfold syncTitleWork; rw [hr5]
        exact workAtCheck_congr mr.data
          (by rw [hq3, hn3, hw1']) (by rw [hq4, hn4, hc1'])
      obtain ⟨hs1, hs2, hs3⟩ := syncDuration_spec t2
      set t3 := syncDuration t2 with ht3
      have hw3 : t3.percent_complete = task.percent_complete := by
        rw [ht3, hs3, hp2]
      obtain ⟨ha1, ha2⟩ := syncActualWork_fields mr.data t3
      cases hps : syncPercentStep mr (syncActualWork mr.data t3) with
      | error e =>
        rw [show syncWorkPercent mr t3 = syncPercentStep mr
          (syncActualWork mr.data t3) from rfl, hps] at h
        exact absurd h (by simp)
      | ok t4 =>
        rw [show syncWorkPercent mr t3 = syncPercentStep mr
          (syncActualWork mr.data t3) from rfl, hps] at h
        simp only at h
        obtain ⟨hps1, hps2⟩ :=
          syncPercentStep_spec mr (syncActualWork mr.data t3) t4 hps
        obtain ⟨hl1, hl2⟩ := syncLinksDates_fields mr.data t4
        have hafter := hts.2 mr (syncLinksDates mr.data t4)
        injection h with h2
        have hdur' : t'.duration = t3.duration := by
          rw [← h2, hafter.1, hl1, hps1, ha1]
        have hpct' : t'.percent_complete = t4.percent_complete := by
          rw [← h2, hafter.2, hl2]
        constructor
        · intro hne
          have hne3 : t3.duration ≠ task.duration := by
            intro hx; exact hne (by rw [hdur', hx])
          by_cases hcond : t2.duration = some DEFAULT_DURATION ∧
              t2.estimated = true ∧ t2.work > 0
          · refine ⟨by rw [← hd2]; exact hcond.1,
              by rw [← he2]; exact hcond.2.1,
              by rw [← hw2]; exact hcond.2.2, ?_⟩
            rw [hdur', ht3, hs1 hcond, hw2]
          · exact absurd (by rw [ht3, hs2 hcond, hd2]) hne3
        · intro hne
          have hne4 : t4.percent_complete ≠
              (syncActualWork mr.data t3).percent_complete := by
            intro hx
            exact hne (by rw [hpct', hx, ha2, hw3])
          rcases hps2 hne4 with hl | hr
          · exact Or.inl hl
          · rw [ha2, hw3] at hr
            exact Or.inr hr

/-- The identity setter satisfies the scheduling-field contract. -/
theorem idSetter_preserves : PreservesSchedulingFields idSetter :=
  ⟨fun _ _ _ => ⟨rfl, rfl, rfl, rfl, rfl⟩, fun _ _ => ⟨rfl, rfl⟩⟩

/-- Unfolding of the synchronizer on a non-moved record: ignore short-cut
or body run. -/
theorem updateAux_nonmoved (ts : TaskTyperSetter) (task : Task) (d : MRData)
    (rest : List MRData) (p : Option (List MergeRequestRef)) (ig ia : Bool)
    (hmv : d.moved_to_id = none) :
    updateAux ts task d rest p ig ia =
      (if ig = true then
        .ok (task, p.getD [] ++ [get_merge_request_ref_id d])
      else
        match syncBody ts task ⟨d, rest⟩ ia with
        | .ok t => .ok (t, p.getD [] ++ [get_merge_request_ref_id d])
        | .error e => .error e) := by
  cases rest <;> rw [updateAux, hmv]

/-- Claim C7 (amended): applying the field synchronizer to a non-moved
record (with a scheduling-field-preserving type setter and well-formed
completion counters) returns normally; the task's duration changes only
when the task's duration equalled `DEFAULT_DURATION`, the task was
flagged as an estimate, and the work value as read by the guard — the
record's truncated estimate for a leaf task with an estimate, the task's
own work otherwise — is positive, in which case duration becomes exactly
that work value.  If the duration differed from the default, or the task
was not an estimate, or that work value is not positive, the duration is
unchanged. -/
theorem claim_C7_duration_guard :
    ∀ (ts : TaskTyperSetter) (task : Task) (mr : MergeRequest) (ig ia : Bool),
      PreservesSchedulingFields ts →
      mr.data.moved_to_id = none →
      (mr.data.has_tasks = true → mr.data.task_count ≠ 0) →
      ∃ t' ids,
        update_task_with_merge_request_data ts task mr none ig ia =
          .ok (t', ids) ∧
        (t'.duration ≠ task.duration →
          task.duration = some DEFAULT_DURATION ∧ task.estimated = true ∧
          workAtCheck mr.data task > 0 ∧
          t'.duration = some (workAtCheck mr.data task)) ∧
        ((task.duration ≠ some DEFAULT_DURATION ∨ task.estimated = false ∨
          workAtCheck mr.data task ≤ 0) → t'.duration = task.duration) := by
  intro ts task mr ig ia hts hmv hwf
  rw [update_task_with_merge_request_data,
    updateAux_nonmoved ts task mr.data mr.restChain none ig ia hmv]
  cases ig with
  | true =>
    exact ⟨task, [get_merge_request_ref_id mr.data], by simp,
      fun hne => absurd rfl hne, fun _ => rfl⟩
  | false =>
    obtain ⟨t', hok⟩ := syncBody_ok ts task mr ia hmv hwf
    have hok' : syncBody ts task ⟨mr.data, mr.restChain⟩ ia = .ok t' := hok
    have hfl := syncBody_fields ts task mr ia hts t' hok
    refine ⟨t', [get_merge_request_ref_id mr.data], by simp [hok'],
      hfl.1, ?_⟩
    intro hdisj
    by_contra hne
    obtain ⟨h1, h2, h3, _⟩ := hfl.1 hne
    rcases hdisj with hd | hd | hd
    · exact hd h1
    · rw [h2] at hd; exact Bool.noConfusion hd
    · omega

/-- C7 counterexample against the original claim: a task whose recorded
work is zero (not positive) still has its duration overwritten, because
the guard reads `task.work` after the estimated-work write: the record's
2-hour estimate becomes work 120 and then duration 120. -/
theorem claim_C7_counterexample :
    taskDefaultDuration.work = 0 ∧
    taskDefaultDuration.duration = some DEFAULT_DURATION ∧
    taskDefaultDuration.estimated = true ∧
    updC7 = .ok updC7res ∧
    updC7res.1.duration = some 120 :=
  ⟨rfl, rfl, rfl, rfl, rfl⟩

/-- Witness for C7 (amended) at a task whose duration differs from the
default: duration is untouched. -/
theorem claim_C7_duration_guard_witness :
    updC7b = .ok updC7bres ∧ updC7bres.1.duration = emptyTask.duration := by
  obtain ⟨t', ids, hok, _, hunch⟩ := claim_C7_duration_guard idSetter
    emptyTask mrWithEstimate false false idSetter_preserves rfl
    (fun hh => absurd hh (by decide))
  have heq : updC7b = .ok (t', ids) := hok
  have h2 : (t', ids) = updC7bres := by
    simp [updC7bres, heq]
  rw [← h2]
  exact ⟨heq, hunch (Or.inl (by decide))⟩

/-- Claim C8: for a non-moved record with no checklist items
(`has_tasks` false) and a task whose percent-complete is non-zero, the
synchronizer leaves percent-complete unchanged (a 40% task is not reset);
and percent-complete is ever written only when the record has checklist
items or the task currently shows exactly zero percent — under a
type setter preserving the scheduling fields. -/
theorem claim_C8_percent_guard :
    ∀ (ts : TaskTyperSetter) (task : Task) (mr : MergeRequest) (ig ia : Bool),
      PreservesSchedulingFields ts →
      mr.data.moved_to_id = none →
      ((mr.data.has_tasks = false → task.percent_complete ≠ 0 →
        ∃ t' ids,
          update_task_with_merge_request_data ts task mr none ig ia =
            .ok (t', ids) ∧
          t'.percent_complete = task.percent_complete) ∧
      (∀ t' ids,
        update_task_with_merge_request_data ts task mr none ig ia =
          .ok (t', ids) →
        t'.percent_complete ≠ task.percent_complete →
        mr.data.has_tasks = true ∨ task.percent_complete = 0)) := by
  intro ts task mr ig ia hts hmv
  constructor
  · intro hht hpc
    have hwf : mr.data.has_tasks = true → mr.data.task_count ≠ 0 :=
      fun hh => absurd hh (by simp [hht])
    rw [update_task_with_merge_request_data,
      updateAux_nonmoved ts task mr.data mr.restChain none ig ia hmv]
    cases ig with
    | true => exact ⟨task, [get_merge_request_ref_id mr.data], by simp, rfl⟩
    | false =>
      obtain ⟨t', hok⟩ := syncBody_ok ts task mr ia hmv hwf
      have hok' : syncBody ts task ⟨mr.data, mr.restChain⟩ ia = .ok t' := hok
      have hfl := syncBody_fields ts task mr ia hts t' hok
      refine ⟨t', [get_merge_request_ref_id mr.data], by simp [hok'], ?_⟩
      by_contra hne
      rcases hfl.2 hne with hl | hr
      · rw [hht] at hl; exact Bool.noConfusion hl
      · exact hpc hr
  · intro t' ids hok hne
    rw [update_task_with_merge_request_data,
      updateAux_nonmoved ts task mr.data mr.restChain none ig ia hmv] at hok
    cases ig with
    | true =>
      simp only [if_pos rfl] at hok
      injection hok with h2
      injection h2 with h3 _
      exact absurd (by rw [← h3]) hne
    | false =>
      simp only [Bool.false_eq_true, if_false] at hok
      cases hb : syncBody ts task ⟨mr.data, mr.restChain⟩ ia with
      | ok t2 =>
        rw [hb] at hok
        simp only at hok
        injection hok with h2
        injection h2 with h3 _
        have hb' : syncBody ts task mr ia = .ok t2 := hb
        have := (syncBody_fields ts task mr ia hts t2 hb').2
        rw [h3] at this
        exact this hne
      | error e => rw [hb] at hok; exact absurd hok (by simp)

/-- Witness for C8: a 40%-complete task against a record with no
checklist items stays at 40%. -/
theorem claim_C8_percent_guard_witness :
    updC8 = .ok updC8res ∧ updC8res.1.percent_complete = 40 := by
  obtain ⟨t', ids, hok, hpc⟩ := (claim_C8_percent_guard idSetter task40
    ⟨sampleData 9, []⟩ false false idSetter_preserves rfl).1
    (by decide) (by decide)
  have heq : updC8 = .ok (t', ids) := hok
  have h2 : (t', ids) = updC8res := by
    simp [updC8res, heq]
  rw [← h2]
  exact ⟨heq, hpc⟩

/-! ## Claim C1: record-index construction -/

theorem nodup_concat {α : Type} {l : List α} {a : α}
    (h : l.Nodup) (ha : a ∉ l) : (l ++ [a]).Nodup := by
  induction l with
  | nil => simp
  | cons b t ih =>
    rw [List.nodup_cons] at h
    rw [List.mem_cons, not_or] at ha
    rw [List.cons_append, List.nodup_cons]
    refine ⟨?_, ih h.2 ha.2⟩
    rw [List.mem_append, List.mem_singleton]
    rintro (hb | hb)
    · exact h.1 hb
    · exact ha.1 hb.symm

theorem alookup_eq_none {α β : Type} [DecidableEq α] :
    ∀ (l : List (α × β)) (k : α),
      alookup l k = none ↔ k ∉ l.map Prod.fst := by
  intro l
  induction l with
  | nil => intro k; simp [alookup]
  | cons p t ih =>
    intro k
    obtain ⟨a, b⟩ := p
    by_cases h : a = k
    · subst h
      simp [alookup]
    · simp [alookup, h, Ne.symm h, ih]

theorem alookup_mem {α β : Type} [DecidableEq α] :
    ∀ (l : List (α × β)) (k : α) (v : β),
      alookup l k = some v → (k, v) ∈ l := by
  intro l
  induction l with
  | nil => intro k v h; exact absurd h (by simp [alookup])
  | cons p t ih =>
    intro k v h
    obtain ⟨a, b⟩ := p
    rw [alookup] at h
    by_cases hak : a = k
    · rw [if_pos hak] at h
      injection h with h
      subst hak
      subst h
      exact List.mem_cons_self _ _
    · rw [if_neg hak] at h
      exact List.mem_cons_of_mem _ (ih k v h)

theorem alookup_map_key {α β : Type} [DecidableEq α] (key : β → α) :
    ∀ (l : List β), (l.map key).Nodup →
      ∀ b ∈ l, alookup (l.map (fun x => (key x, x))) (key b) = some b := by
  intro l
  induction l with
  | nil => intro _ b hb; exact absurd hb (List.not_mem_nil b)
  | cons a t ih =>
    intro hnd b hb
    rw [List.map_cons, List.nodup_cons] at hnd
    rw [List.map_cons, alookup]
    by_cases h : key a = key b
    · rw [if_pos h]
      rcases List.mem_cons.mp hb with rfl | hbt
      · rfl
      · have hin : key a ∈ t.map key := by
          rw [h]
          exact List.mem_map_of_mem key hbt
        exact absurd hin hnd.1
    · rw [if_neg h]
      rcases List.mem_cons.mp hb with rfl | hbt
      · exact absurd rfl h
      · exact ih hnd.2 b hbt

theorem refKeys_cons (mr : MergeRequest) (rest : List MergeRequest) :
    refKeys (mr :: rest) = get_merge_request_ref_id mr.data :: refKeys rest :=
  rfl

theorem urlKeys_cons (mr : MergeRequest) (rest : List MergeRequest) :
    urlKeys (mr :: rest) = get_merge_request_web_url mr.data :: urlKeys rest :=
  rfl

theorem refBindings_cons (mr : MergeRequest) (rest : List MergeRequest) :
    refBindings (mr :: rest) =
      (get_merge_request_ref_id mr.data, mr) :: refBindings rest :=
  rfl

theorem urlBindings_cons (mr : MergeRequest) (rest : List MergeRequest) :
    urlBindings (mr :: rest) =
      (get_merge_request_web_url mr.data, mr) :: urlBindings rest :=
  rfl

theorem refKeys_append (xs ys : List MergeRequest) :
    refKeys (xs ++ ys) = refKeys xs ++ refKeys ys :=
  List.map_append _ _ _

theorem urlKeys_append (xs ys : List MergeRequest) :
    urlKeys (xs ++ ys) = urlKeys xs ++ urlKeys ys :=
  List.map_append _ _ _

theorem refBindings_append (xs ys : List MergeRequest) :
    refBindings (xs ++ ys) = refBindings xs ++ refBindings ys :=
  List.map_append _ _ _

theorem urlBindings_append (xs ys : List MergeRequest) :
    urlBindings (xs ++ ys) = urlBindings xs ++ urlBindings ys :=
  List.map_append _ _ _

theorem refBindings_fst (mrs : List MergeRequest) :
    (refBindings mrs).map Prod.fst = refKeys mrs := by
  simp [refBindings, refKeys, List.map_map, Function.comp]

theorem urlBindings_fst (mrs : List MergeRequest) :
    (urlBindings mrs).map Prod.fst = urlKeys mrs := by
  simp [urlBindings, urlKeys, List.map_map, Function.comp]

theorem alookup_refBindings (mrs : List MergeRequest)
    (hnd : (refKeys mrs).Nodup) (mr : MergeRequest) (hmr : mr ∈ mrs) :
    alookup (refBindings mrs) (get_merge_request_ref_id mr.data) = some mr :=
  alookup_map_key (fun x : MergeRequest => get_merge_request_ref_id x.data)
    mrs hnd mr hmr

theorem alookup_urlBindings (mrs : List MergeRequest)
    (hnd : (urlKeys mrs).Nodup) (mr : MergeRequest) (hmr : mr ∈ mrs) :
    alookup (urlBindings mrs) (get_merge_request_web_url mr.data) = some mr :=
  alookup_map_key (fun x : MergeRequest => get_merge_request_web_url x.data)
    mrs hnd mr hmr

/-- When construction succeeds, the final dictionaries are exactly the
accumulator's entries followed by one entry per input record, in input
order. -/
theorem buildFinder_ok_eq :
    ∀ (mrs : List MergeRequest) (acc f : MergeRequestFinder),
      buildFinder mrs acc = .ok f →
      f.ref_id_to_merge_request = acc.ref_id_to_merge_request ++ refBindings mrs ∧
      f.web_url_to_merge_request = acc.web_url_to_merge_request ++ urlBindings mrs := by
  intro mrs
  induction mrs with
  | nil =>
    intro acc f h
    rw [buildFinder] at h
    injection h with h
    subst h
    constructor <;> simp [refBindings, urlBindings]
  | cons mr rest ih =>
    intro acc f h
    simp only [buildFinder] at h
    split at h
    · exact Except.noConfusion h
    · split at h
      · exact Except.noConfusion h
      · obtain ⟨ha, hb⟩ := ih _ f h
        constructor
        · rw [ha, refBindings_cons, List.append_assoc, List.singleton_append]
        · rw [hb, urlBindings_cons, List.append_assoc, List.singleton_append]

/-- Construction succeeds whenever the accumulator keys plus the input
keys are (each) duplicate-free. -/
theorem buildFinder_ok_of_nodup :
    ∀ (mrs : List MergeRequest) (acc : MergeRequestFinder),
      (acc.ref_id_to_merge_request.map Prod.fst ++ refKeys mrs).Nodup →
      (acc.web_url_to_merge_request.map Prod.fst ++ urlKeys mrs).Nodup →
      ∃ f, buildFinder mrs acc = .ok f := by
  intro mrs
  induction mrs with
  | nil => intro acc _ _; exact ⟨acc, rfl⟩
  | cons mr rest ih =>
    intro acc h1 h2
    rw [refKeys_cons] at h1
    rw [urlKeys_cons] at h2
    have h1m := List.nodup_middle.mp h1
    have h2m := List.nodup_middle.mp h2
    rw [List.nodup_cons] at h1m h2m
    have hkA : get_merge_request_ref_id mr.data ∉
        acc.ref_id_to_merge_request.map Prod.fst :=
      fun hm => h1m.1 (List.mem_append_left _ hm)
    have huA : get_merge_request_web_url mr.data ∉
        acc.web_url_to_merge_request.map Prod.fst :=
      fun hm => h2m.1 (List.mem_append_left _ hm)
    have hnone := (alookup_eq_none acc.ref_id_to_merge_request _).mpr hkA
    have hnoneU := (alookup_eq_none acc.web_url_to_merge_request _).mpr huA
    have hr : ((acc.ref_id_to_merge_request ++
        [(get_merge_request_ref_id mr.data, mr)]).map Prod.fst ++
          refKeys rest).Nodup := by
      rw [List.map_append]
      simp only [List.map_cons, List.map_nil]
      rw [List.append_assoc]
      exact h1
    have hu : ((acc.web_url_to_merge_request ++
        [(get_merge_request_web_url mr.data, mr)]).map Prod.fst ++
          urlKeys rest).Nodup := by
      rw [List.map_append]
      simp only [List.map_cons, List.map_nil]
      rw [List.append_assoc]
      exact h2
    obtain ⟨f, hf⟩ := ih ⟨acc.ref_id_to_merge_request ++
        [(get_merge_request_ref_id mr.data, mr)],
      acc.web_url_to_merge_request ++
        [(get_merge_request_web_url mr.data, mr)]⟩ hr hu
    refine ⟨f, ?_⟩
    have hstep : buildFinder (mr :: rest) acc =
        buildFinder rest ⟨acc.ref_id_to_merge_request ++
            [(get_merge_request_ref_id mr.data, mr)],
          acc.web_url_to_merge_request ++
            [(get_merge_request_web_url mr.data, mr)]⟩ := by
      simp only [buildFinder, hnone, hnoneU]
    rw [hstep]
    exact hf

/-- When the keys seen so far (`S`) are duplicate-free but the whole
input is not, construction aborts with an error naming a previously
inserted record and the newly offending record, sharing the duplicated
key. -/
theorem buildFinder_error_spec :
    ∀ (mrs S : List MergeRequest),
      (refKeys S).Nodup → (urlKeys S).Nodup →
      (¬ (refKeys (S ++ mrs)).Nodup ∨ ¬ (urlKeys (S ++ mrs)).Nodup) →
      ∃ e, buildFinder mrs ⟨refBindings S, urlBindings S⟩ = .error e ∧
        e.first ∈ S ++ mrs ∧ e.second ∈ mrs ∧
        (e.byUrl = false →
          get_merge_request_ref_id e.first.data =
            get_merge_request_ref_id e.second.data) ∧
        (e.byUrl = true →
          get_merge_request_web_url e.first.data =
            get_merge_request_web_url e.second.data) := by
  intro mrs
  induction mrs with
  | nil =>
    intro S h1 h2 h
    rw [List.append_nil] at h
    rcases h with h | h
    · exact absurd h1 h
    · exact absurd h2 h
  | cons mr rest ih =>
    intro S h1 h2 h
    cases hl : alookup (refBindings S) (get_merge_request_ref_id mr.data) with
    | some existing =>
      have hmem := alookup_mem _ _ _ hl
      rw [refBindings] at hmem
      obtain ⟨x, hxS, hpair⟩ := List.mem_map.mp hmem
      simp only [Prod.mk.injEq] at hpair
      obtain ⟨hks, hxe⟩ := hpair
      subst hxe
      refine ⟨⟨x, mr, false⟩, ?_, ?_, List.mem_cons_self mr rest, ?_, ?_⟩
      · simp only [buildFinder, hl]
      · exact List.mem_append_left _ hxS
      · intro _
        exact hks
      · intro hbu
        exact Bool.noConfusion hbu
    | none =>
      cases hlu : alookup (urlBindings S) (get_merge_request_web_url mr.data) with
      | some existing =>
        have hmem := alookup_mem _ _ _ hlu
        rw [urlBindings] at hmem
        obtain ⟨x, hxS, hpair⟩ := List.mem_map.mp hmem
        simp only [Prod.mk.injEq] at hpair
        obtain ⟨hks, hxe⟩ := hpair
        subst hxe
        refine ⟨⟨x, mr, true⟩, ?_, ?_, List.mem_cons_self mr rest, ?_, ?_⟩
        · simp only [buildFinder, hl, hlu]
        · exact List.mem_append_left _ hxS
        · intro hbu
          exact Bool.noConfusion hbu
        · intro _
          exact hks
      | none =>
        have hkS : get_merge_request_ref_id mr.data ∉ refKeys S := by
          have hx := (alookup_eq_none (refBindings S) _).mp hl
          rwa [refBindings_fst] at hx
        have huS : get_merge_request_web_url mr.data ∉ urlKeys S := by
          have hx := (alookup_eq_none (urlBindings S) _).mp hlu
          rwa [urlBindings_fst] at hx
        have h1m : (refKeys (S ++ [mr])).Nodup := by
          rw [refKeys_append]
          exact nodup_concat h1 hkS
        have h2m : (urlKeys (S ++ [mr])).Nodup := by
          rw [urlKeys_append]
          exact nodup_concat h2 huS
        have hh : ¬ (refKeys ((S ++ [mr]) ++ rest)).Nodup ∨
            ¬ (urlKeys ((S ++ [mr]) ++ rest)).Nodup := by
          rw [List.append_assoc]
          exact h
        obtain ⟨e, he, hf1, hf2, hf3, hf4⟩ := ih (S ++ [mr]) h1m h2m hh
        refine ⟨e, ?_, ?_, List.mem_cons_of_mem mr hf2, hf3, hf4⟩
        · have hstep : buildFinder (mr :: rest) ⟨refBindings S, urlBindings S⟩ =
              buildFinder rest ⟨refBindings (S ++ [mr]), urlBindings (S ++ [mr])⟩ := by
            simp only [buildFinder, hl, hlu]
            rw [show refBindings S ++ [(get_merge_request_ref_id mr.data, mr)] =
                refBindings (S ++ [mr]) from (refBindings_append S [mr]).symm]
            rw [show urlBindings S ++ [(get_merge_request_web_url mr.data, mr)] =
                urlBindings (S ++ [mr]) from (urlBindings_append S [mr]).symm]
          rw [hstep]
          exact he
        · rw [List.append_assoc] at hf1
          exact hf1

/-- Claim C1: building the record index from records whose ref ids and
web URLs are (each) pairwise distinct succeeds, and every input record is
then reachable through `by_ref_id` under its ref and through `by_web_url`
under its URL; while any duplicated ref id or URL makes construction
abort with a `MergeRequestReferenceDuplicated` error naming two input
records that share the offending key — no index object is produced. -/
theorem claim_C1_finder_construction :
    ∀ mrs : List MergeRequest,
      (((refKeys mrs).Nodup ∧ (urlKeys mrs).Nodup) →
        ∃ f, mkMergeRequestFinder mrs = .ok f ∧
          ∀ mr ∈ mrs,
            f.by_ref_id (some (get_merge_request_ref_id mr.data)) =
              .ok (some mr) ∧
            f.by_web_url (some (get_merge_request_web_url mr.data)) =
              .ok (some mr)) ∧
      ((¬ (refKeys mrs).Nodup ∨ ¬ (urlKeys mrs).Nodup) →
        ∃ e, mkMergeRequestFinder mrs = .error e ∧
          e.first ∈ mrs ∧ e.second ∈ mrs ∧
          (e.byUrl = false →
            get_merge_request_ref_id e.first.data =
              get_merge_request_ref_id e.second.data) ∧
          (e.byUrl = true →
            get_merge_request_web_url e.first.data =
              get_merge_request_web_url e.second.data)) := by
  intro mrs
  constructor
  · rintro ⟨hr, hu⟩
    obtain ⟨f, hf⟩ := buildFinder_ok_of_nodup mrs ⟨[], []⟩
      (by simpa using hr) (by simpa using hu)
    obtain ⟨ha, hb⟩ := buildFinder_ok_eq mrs ⟨[], []⟩ f hf
    refine ⟨f, hf, ?_⟩
    intro mr hmr
    constructor
    · rw [MergeRequestFinder.by_ref_id,
        show f.ref_id_to_merge_request = refBindings mrs from by simpa using ha,
        alookup_refBindings mrs hr mr hmr]
    · rw [MergeRequestFinder.by_web_url,
        show f.web_url_to_merge_request = urlBindings mrs from by simpa using hb,
        alookup_urlBindings mrs hu mr hmr]
  · intro h
    obtain ⟨e, he, h1, h2, h3, h4⟩ := buildFinder_error_spec mrs []
      (by simp [refKeys]) (by simp [urlKeys]) (by simpa using h)
    exact ⟨e, he, by simpa using h1, h2, h3, h4⟩

/-- Witness for C1: two records with distinct keys build `finderAB` with
both lookups answering; re-using `dataA`'s id under a different URL
aborts construction with an error naming records that share that id. -/
theorem claim_C1_finder_construction_witness :
    mkMergeRequestFinder [⟨dataA, []⟩, ⟨dataB, []⟩] = .ok finderAB ∧
    finderAB.by_ref_id (some (get_merge_request_ref_id dataA)) =
      .ok (some ⟨dataA, []⟩) ∧
    finderAB.by_web_url (some (get_merge_request_web_url dataB)) =
      .ok (some ⟨dataB, []⟩) ∧
    mkMergeRequestFinder [⟨dataA, []⟩, ⟨dataDupRef, []⟩] = .error dupErrC1 ∧
    dupErrC1.byUrl = false ∧
    get_merge_request_ref_id dupErrC1.first.data =
      get_merge_request_ref_id dupErrC1.second.data := by
  obtain ⟨f, hok, hreach⟩ :=
    (claim_C1_finder_construction [⟨dataA, []⟩, ⟨dataB, []⟩]).1 (by decide)
  have hfa : finderAB = f := by rw [finderAB, hok]
  obtain ⟨e, herr, hm1, hm2, hkey, hkeyu⟩ :=
    (claim_C1_finder_construction [⟨dataA, []⟩, ⟨dataDupRef, []⟩]).2 (by decide)
  have hde : dupErrC1 = e := by rw [dupErrC1, herr]
  have hbu : e.byUrl = false := by
    rw [← hde]
    decide
  refine ⟨by rw [hfa]; exact hok, ?_, ?_, by rw [hde]; exact herr,
    by rw [hde]; exact hbu, ?_⟩
  · rw [hfa]
    exact (hreach ⟨dataA, []⟩ (List.mem_cons_self _ _)).1
  · rw [hfa]
    exact (hreach ⟨dataB, []⟩
      (List.mem_cons_of_mem _ (List.mem_cons_self _ _))).2
  · rw [hde]
    exact hkey hbu

/-! ## Claim C5: creation-pass deduplication -/

theorem by_ref_id_ne_ok_none (f : MergeRequestFinder) (r : MergeRequestRef) :
    f.by_ref_id (some r) ≠ .ok none := by
  cases h : alookup f.ref_id_to_merge_request r with
  | none =>
    rw [MergeRequestFinder.by_ref_id, h]
    simp
  | some mr =>
    rw [MergeRequestFinder.by_ref_id, h]
    simp

theorem by_ref_id_ok_some (f : MergeRequestFinder) (r : MergeRequestRef)
    (mr : MergeRequest) (h : f.by_ref_id (some r) = .ok (some mr)) :
    alookup f.ref_id_to_merge_request r = some mr := by
  rw [MergeRequestFinder.by_ref_id] at h
  cases hl : alookup f.ref_id_to_merge_request r with
  | none =>
    rw [hl] at h
    exact Except.noConfusion h
  | some mr2 =>
    rw [hl] at h
    injection h with h

/-- On success the move-resolution loop returns exactly the refs of the
non-moved records, in input order. -/
theorem resolutionPass_ok_eq :
    ∀ (mrs : List MergeRequest) (f : MergeRequestFinder)
      (l : List MergeRequestRef),
      resolutionPass f mrs = .ok l →
      l = refKeys (mrs.filter (fun mr => mr.data.moved_to_id.isNone)) := by
  intro mrs f
  induction mrs with
  | nil =>
    intro l h
    rw [resolutionPass] at h
    injection h with h
    rw [← h]
    rfl
  | cons mr rest ih =>
    intro l h
    rw [resolutionPass] at h
    split at h
    · rename_i i hmv
      split at h
      · exact Except.noConfusion h
      · rw [ih l h]
        simp [List.filter_cons, hmv]
    · rename_i hmv
      split at h
      · exact Except.noConfusion h
      · rename_i tail htail
        injection h with h
        rw [← h, ih tail htail]
        simp [List.filter_cons, hmv, refKeys_cons]

/-- The existing-task pass rewrites document slots in place: the returned
document has the same length as the input document. -/
theorem taskPass_length :
    ∀ (doc : List (Option Task)) (f : MergeRequestFinder) (gitlab_url : WebURL)
      (ts : TaskTyperSetter) (inc : MergeRequest → Bool) (fuel : Nat)
      (doc2 : List (Option Task)) (synced : List MergeRequestRef),
      taskPass f gitlab_url ts inc fuel doc = .ok (doc2, synced) →
      doc2.length = doc.length := by
  intro doc f gitlab_url ts inc fuel
  induction doc with
  | nil =>
    intro doc2 synced h
    rw [taskPass] at h
    injection h with h
    injection h with h1 h2
    rw [← h1]
  | cons slot rest ih =>
    intro doc2 synced h
    cases slot with
    | none =>
      simp only [taskPass] at h
      split at h
      · exact Except.noConfusion h
      · rename_i d s hrec
        injection h with h
        injection h with h1 h2
        rw [← h1, List.length_cons, List.length_cons, ih d s hrec]
    | some task =>
      simp only [taskPass] at h
      split at h
      · exact Except.noConfusion h
      · split at h
        · exact Except.noConfusion h
        · rename_i d s hrec
          injection h with h
          injection h with h1 h2
          rw [← h1, List.length_cons, List.length_cons, ih d s hrec]
      · split at h
        · exact Except.noConfusion h
        · split at h
          · exact Except.noConfusion h
          · exact Except.noConfusion h
          · split at h
            · exact Except.noConfusion h
            · rename_i d s hrec
              injection h with h
              injection h with h1 h2
              rw [← h1, List.length_cons, List.length_cons, ih d s hrec]

/-- What the creation pass builds: every created ref comes from the input
refs and escaped the synced set; a non-consumed ref whose finder record
passes the inclusion predicate is created exactly once (for
duplicate-free input refs); and the document grows by one appended task
per created ref. -/
theorem creationPass_spec :
    ∀ (refs : List MergeRequestRef) (f : MergeRequestFinder)
      (ts : TaskTyperSetter) (inc : MergeRequest → Bool) (fuel : Nat)
      (synced : List MergeRequestRef) (doc doc2 : List (Option Task))
      (created : List MergeRequestRef),
      creationPass f ts inc fuel synced doc refs = .ok (doc2, created) →
      refs.Nodup →
      (∀ r ∈ created, r ∈ refs ∧ r ∉ synced) ∧
      (∀ r ∈ refs, r ∉ synced →
        (∀ mr, alookup f.ref_id_to_merge_request r = some mr →
          inc mr = true) →
        created.count r = 1) ∧
      doc2.length = doc.length + created.length := by
  intro refs f ts inc fuel synced
  induction refs with
  | nil =>
    intro doc doc2 created h _
    rw [creationPass] at h
    injection h with h
    injection h with h1 h2
    refine ⟨?_, ?_, ?_⟩
    · intro r hr
      rw [← h2] at hr
      exact absurd hr (List.not_mem_nil r)
    · intro r hr
      exact absurd hr (List.not_mem_nil r)
    · rw [← h1, ← h2]
      simp
  | cons r rest ih =>
    intro doc doc2 created h hnd
    rw [List.nodup_cons] at hnd
    simp only [creationPass] at h
    split at h
    · rename_i hin
      obtain ⟨ha, hb, hc⟩ := ih doc doc2 created h hnd.2
      refine ⟨?_, ?_, hc⟩
      · intro x hx
        obtain ⟨m1, m2⟩ := ha x hx
        exact ⟨List.mem_cons_of_mem r m1, m2⟩
      · intro x hx hxs hall
        rcases List.mem_cons.mp hx with rfl | hxr
        · exact absurd hin hxs
        · exact hb x hxr hxs hall
    · rename_i hnin
      split at h
      · exact Except.noConfusion h
      · rename_i hby
        exact absurd hby (by_ref_id_ne_ok_none f r)
      · rename_i mr hby
        have halk := by_ref_id_ok_some f r mr hby
        split at h
        · rename_i hincF
          obtain ⟨ha, hb, hc⟩ := ih doc doc2 created h hnd.2
          refine ⟨?_, ?_, hc⟩
          · intro x hx
            obtain ⟨m1, m2⟩ := ha x hx
            exact ⟨List.mem_cons_of_mem r m1, m2⟩
          · intro x hx hxs hall
            rcases List.mem_cons.mp hx with rfl | hxr
            · have hone := hall mr halk
              rw [hone] at hincF
              simp at hincF
            · exact hb x hxr hxs hall
        · rename_i hincT
          split at h
          · exact Except.noConfusion h
          · rename_i resolved hdeep
            split at h
            · exact Except.noConfusion h
            · exact Except.noConfusion h
            · rename_i task2 ids hupd
              split at h
              · exact Except.noConfusion h
              · rename_i d2 c2 hrec
                injection h with h
                injection h with h1 h2
                obtain ⟨ha, hb, hc⟩ := ih (doc ++ [some task2]) d2 c2 hrec hnd.2
                have hc2sub : ∀ x ∈ c2, x ∈ rest := fun x hx => (ha x hx).1
                refine ⟨?_, ?_, ?_⟩
                · intro x hx
                  rw [← h2] at hx
                  rcases List.mem_cons.mp hx with rfl | hxc
                  · exact ⟨List.mem_cons_self _ _, hnin⟩
                  · obtain ⟨m1, m2⟩ := ha x hxc
                    exact ⟨List.mem_cons_of_mem r m1, m2⟩
                · intro x hx hxs hall
                  rw [← h2]
                  rcases List.mem_cons.mp hx with rfl | hxr
                  · have hxc2 : x ∉ c2 := fun hm => hnd.1 (hc2sub x hm)
                    rw [List.count_cons_self, List.count_eq_zero.mpr hxc2]
                  · have hne : x ≠ r := fun he => hnd.1 (he ▸ hxr)
                    rw [List.count_cons_of_ne hne]
                    exact hb x hxr hxs hall
                · rw [← h1, ← h2, hc]
                  simp only [List.length_append, List.length_cons,
                    List.length_nil]
                  omega

/-- A successfully built index certifies that both key sequences were
duplicate-free. -/
theorem mk_ok_nodup (mrs : List MergeRequest) (f : MergeRequestFinder)
    (h : mkMergeRequestFinder mrs = .ok f) :
    (refKeys mrs).Nodup ∧ (urlKeys mrs).Nodup := by
  by_contra hc
  rw [not_and_or] at hc
  obtain ⟨e, he, hm1, hm2, hk1, hk2⟩ := buildFinder_error_spec mrs []
    (by simp [refKeys]) (by simp [urlKeys]) (by simpa using hc)
  rw [show mkMergeRequestFinder mrs =
    buildFinder mrs ⟨refBindings [], urlBindings []⟩ from rfl] at h
  rw [he] at h
  exact Except.noConfusion h

/-- Claim C5: after a successful orchestrator run, no task is created for
a ref consumed by the existing-task pass (which gathers refs along the
whole resolved move chain, also for excluded records run with
`ignore=true`); no record declaring a successor ever gets a task created
(only non-moved records enter the creation list); a non-moved record
whose ref escaped the synced set and that the inclusion predicate admits
gets exactly one created task; and the final document grew by exactly one
appended task per created ref. -/
theorem claim_C5_creation_dedup :
    ∀ (doc : List (Option Task)) (mrs : List MergeRequest)
      (gitlab_url : WebURL) (ts : TaskTyperSetter)
      (incOpt : Option (MergeRequest → Bool)) (res : RunResult),
      sync_gitlab_merge_requests_to_ms_project doc mrs gitlab_url ts incOpt =
        .ok res →
      (∀ r ∈ res.created, r ∉ res.synced) ∧
      (∀ mr ∈ mrs, mr.data.moved_to_id ≠ none →
        get_merge_request_ref_id mr.data ∉ res.created) ∧
      (∀ mr ∈ mrs, mr.data.moved_to_id = none →
        get_merge_request_ref_id mr.data ∉ res.synced →
        incOpt.getD (fun _ => true) mr = true →
        res.created.count (get_merge_request_ref_id mr.data) = 1) ∧
      res.doc.length = doc.length + res.created.length := by
  intro doc mrs gitlab_url ts incOpt res h
  simp only [sync_gitlab_merge_requests_to_ms_project] at h
  split at h
  · exact Except.noConfusion h
  · rename_i f hmk
    split at h
    · exact Except.noConfusion h
    · rename_i non_moved hres
      split at h
      · exact Except.noConfusion h
      · rename_i doc1 synced htp
        split at h
        · exact Except.noConfusion h
        · rename_i doc2 created hcp
          injection h with h
          subst h
          have hnd := mk_ok_nodup mrs f hmk
          have hfb := buildFinder_ok_eq mrs ⟨[], []⟩ f hmk
          have hrefEq : f.ref_id_to_merge_request = refBindings mrs := by
            simpa using hfb.1
          have hchar := resolutionPass_ok_eq mrs f non_moved hres
          have hnm_nodup : non_moved.Nodup := by
            rw [hchar, refKeys]
            have hsub : (List.filter
                (fun mr => mr.data.moved_to_id.isNone) mrs).Sublist mrs :=
              List.filter_sublist mrs
            have hsub2 := hsub.map
              (fun mr : MergeRequest => get_merge_request_ref_id mr.data)
            exact List.Nodup.sublist hsub2 hnd.1
          obtain ⟨hcA, hcB, hcC⟩ := creationPass_spec non_moved f ts
            (incOpt.getD (fun _ => true)) (mrs.length + 1) synced doc1 doc2
            created hcp hnm_nodup
          have hlen1 := taskPass_length doc f gitlab_url ts
            (incOpt.getD (fun _ => true)) (mrs.length + 1) doc1 synced htp
          refine ⟨fun x hx => (hcA x hx).2, ?_, ?_, ?_⟩
          · intro mr hmr hmv hini
            have hmem := (hcA _ hini).1
            rw [hchar, refKeys] at hmem
            obtain ⟨mr2, hmr2, hkey⟩ := List.mem_map.mp hmem
            rw [List.mem_filter] at hmr2
            obtain ⟨hmr2m, hp2⟩ := hmr2
            have heq : mr2 = mr :=
              List.inj_on_of_nodup_map hnd.1 hmr2m hmr hkey
            rw [heq] at hp2
            simp only [Option.isNone_iff_eq_none] at hp2
            exact hmv hp2
          · intro mr hmr hmv hsyn hinc
            have hmemnm : get_merge_request_ref_id mr.data ∈ non_moved := by
              rw [hchar, refKeys]
              exact List.mem_map_of_mem _
                (List.mem_filter.mpr ⟨hmr, by simp [hmv]⟩)
            refine hcB _ hmemnm hsyn ?_
            intro mr2 halk
            rw [hrefEq, alookup_refBindings mrs hnd.1 mr hmr] at halk
            injection halk with halk
            rw [← halk]
            exact hinc
          · rw [hcC, hlen1]

/-- Witness for C5 on the A-superseded-by-B / independent-C fixture with
one existing task matching B: the run succeeds, the moved record A gets
no created task, the independent record C gets exactly one, and the
document grew by the number of created tasks. -/
theorem claim_C5_creation_dedup_witness :
    run5 = .ok res5 ∧
    get_merge_request_ref_id dataA5 ∉ res5.created ∧
    res5.created.count (get_merge_request_ref_id dataC5) = 1 ∧
    res5.doc.length = doc5.length + res5.created.length := by
  have h : sync_gitlab_merge_requests_to_ms_project doc5 mrs5 gitlabURL0
      idSetter none = .ok res5 := rfl
  obtain ⟨h1, h2, h3, h4⟩ :=
    claim_C5_creation_dedup doc5 mrs5 gitlabURL0 idSetter none res5 h
  refine ⟨h, ?_, ?_, h4⟩
  · exact h2 ⟨dataA5, []⟩ (by decide) (by decide)
  · exact h3 ⟨dataC5, []⟩ (by decide) rfl (by decide) rfl

end SGMP
